import Mathlib

/-!
Verification of the joint/axis INI configuration loader of
`src/emc/ini/inijoint.cc` (LinuxCNC).

The file shallowly embeds the two components of the source file:

* `loadJoint` / `iniJoint` — the schema-driven unit configuration loader.
  The INI file is modelled as an abstract `ConfigSource` (each typed
  `Find` channel returns "absent", a value, or a conversion error — the
  three observable outcomes of `EmcIniFile::Find` with
  `ERR_CONVERSION` exceptions enabled), and the motion controller as a
  response function `CtrlCall → Int` (`0` = success, as in the C API).
  The embedding threads an explicit event trace (every lookup performed
  and every controller call issued, with its return code) so that
  ordering and "never invoked" properties can be stated.

* `iniGetFloatPrec` / `iniFormatFloat` / `iniFormatFloat2` — the
  precision-inference formatter.

C `double` values are modelled as `ℚ`: the loader never performs any
floating-point arithmetic, it only parses literals and passes values
through, so the dataflow is faithfully represented.
-/

/-- `EmcJointType`: the two joint types of the source
(`EMC_JOINT_LINEAR` / `EMC_JOINT_ANGULAR`). -/
inductive JointType where
  | linear
  | angular
deriving DecidableEq, Repr

/-- Outcome of one typed `EmcIniFile::Find(&var, key, sec)` call with
conversion-error exceptions enabled: the key may be absent (the
variable keeps its prior value), present with a convertible value, or
present but malformed (throws `ERR_CONVERSION`). -/
inductive FindResult (α : Type) where
  | absent
  | ok (v : α)
  | convErr
deriving DecidableEq, Repr

/-- Did the lookup raise a conversion error? -/
def FindResult.isErr {α : Type} : FindResult α → Bool
  | .convErr => true
  | _ => false

/-- The value the destination variable holds after a non-throwing
`Find`: the found value, or the previous (default) value when absent.
(On `convErr` the run aborts, so the returned value is irrelevant; we
return the default.) -/
def FindResult.getD {α : Type} : FindResult α → α → α
  | .ok v, _ => v
  | _, d => d

/-- Which typed lookup channel of `EmcIniFile` was consulted
(`Find` on an `EmcJointType`, `FindLinearUnits`, `FindAngularUnits`,
`Find` on `double` / `bool` / `int`, or the raw string `Find`). -/
inductive LookupChan where
  | typ
  | linearUnits
  | angularUnits
  | float
  | bool
  | int
  | raw
deriving DecidableEq, Repr

/-- One controller invocation of the `emcJoint*` API, with its
arguments.  `setHomingParams` keeps the argument order of the C call
`emcJointSetHomingParams(joint, home, offset, home_vel, search_vel,
latch_vel, use_index, ignore_limits, is_shared, sequence,
volatile_home)`; the three C `(int)` casts of bools are kept as `Bool`
arguments. -/
inductive CtrlCall where
  | setJointType (joint : Int) (jt : JointType)
  | setUnits (joint : Int) (units : ℚ)
  | setBacklash (joint : Int) (backlash : ℚ)
  | setMinPositionLimit (joint : Int) (limit : ℚ)
  | setMaxPositionLimit (joint : Int) (limit : ℚ)
  | setFerror (joint : Int) (ferror : ℚ)
  | setMinFerror (joint : Int) (ferror : ℚ)
  | setHomingParams (joint : Int) (home offset homeVel searchVel latchVel : ℚ)
      (useIndex ignoreLimits isShared : Bool) (sequence volatileHome : Int)
  | setMaxVelocity (joint : Int) (vel : ℚ)
  | setMaxAcceleration (joint : Int) (acc : ℚ)
  | loadComp (joint : Int) (file : String) (fileType : Int)
  | activate (joint : Int)
deriving DecidableEq, Repr

/-- The kind (name) of a controller call, forgetting arguments; used to
state the fixed invocation order. -/
inductive CallKind where
  | kSetJointType
  | kSetUnits
  | kSetBacklash
  | kSetMinPositionLimit
  | kSetMaxPositionLimit
  | kSetFerror
  | kSetMinFerror
  | kSetHomingParams
  | kSetMaxVelocity
  | kSetMaxAcceleration
  | kLoadComp
  | kActivate
deriving DecidableEq, Repr

/-- Kind of a controller call. -/
def kindOf : CtrlCall → CallKind
  | .setJointType .. => .kSetJointType
  | .setUnits .. => .kSetUnits
  | .setBacklash .. => .kSetBacklash
  | .setMinPositionLimit .. => .kSetMinPositionLimit
  | .setMaxPositionLimit .. => .kSetMaxPositionLimit
  | .setFerror .. => .kSetFerror
  | .setMinFerror .. => .kSetMinFerror
  | .setHomingParams .. => .kSetHomingParams
  | .setMaxVelocity .. => .kSetMaxVelocity
  | .setMaxAcceleration .. => .kSetMaxAcceleration
  | .loadComp .. => .kLoadComp
  | .activate .. => .kActivate

/-- The fixed order in which `loadJoint` issues controller calls
(`loadComp` only when a `COMP_FILE` is present, `activate` only on
success). -/
def canonicalOrder : List CallKind :=
  [.kSetJointType, .kSetUnits, .kSetBacklash, .kSetMinPositionLimit,
   .kSetMaxPositionLimit, .kSetFerror, .kSetMinFerror, .kSetHomingParams,
   .kSetMaxVelocity, .kSetMaxAcceleration, .kLoadComp, .kActivate]

/-- One observable event of a load run: a configuration lookup
(recording the channel, key, section and whether it raised a
conversion error) or a controller call (recording its return code). -/
inductive Ev where
  | lookup (chan : LookupChan) (key sec : String) (convErr : Bool)
  | call (c : CtrlCall) (ret : Int)
deriving DecidableEq, Repr

/-- An event is good when it does not abort the load: a lookup without
conversion error, or a controller call that returned 0. -/
def evGood : Ev → Bool
  | .lookup _ _ _ ce => !ce
  | .call _ r => r == 0

/-- A positional label for an event, used to reason about relative
order in a trace: the key for a lookup, the call kind for a call. -/
def evLabel : Ev → Sum String CallKind
  | .lookup _ key _ _ => .inl key
  | .call c _ => .inr (kindOf c)

/-- The controller-call kinds of a trace, in order. -/
def callKinds (tr : List Ev) : List CallKind :=
  tr.filterMap fun e =>
    match e with
    | .call c _ => some (kindOf c)
    | .lookup .. => none

/-- The configuration source consumed by the loader: one abstract
lookup function per typed `Find` channel of `EmcIniFile` (plus the raw
string `Find` used for `COMP_FILE`, which cannot raise a conversion
error and returns `NULL`/`none` when absent). -/
structure ConfigSource where
  findJointType : String → String → FindResult JointType
  findLinearUnits : String → String → FindResult ℚ
  findAngularUnits : String → String → FindResult ℚ
  findFloat : String → String → FindResult ℚ
  findBool : String → String → FindResult Bool
  findInt : String → String → FindResult Int
  findString : String → String → Option String

/-- The process-wide values the loader reads besides the INI file: the
trajectory-level unit getters `emcTrajGetLinearUnits()` /
`emcTrajGetAngularUnits()` and the `emccfg.h` constants
`DEFAULT_JOINT_MAX_VELOCITY` / `DEFAULT_JOINT_MAX_ACCELERATION`
(declared outside this source file), passed in explicitly. -/
structure Env where
  trajLinearUnits : ℚ
  trajAngularUnits : ℚ
  defaultJointMaxVelocity : ℚ
  defaultJointMaxAcceleration : ℚ

/-- The load computation: state-passing over the event trace, aborting
(like the C `try`/`catch` plus `return -1`) with `Except.error`. -/
def LoadM (α : Type) : Type :=
  List Ev → Except Unit α × List Ev

/-- Sequencing of load steps (the C statement sequence inside `try`). -/
def LoadM.bind {α β : Type} (m : LoadM α) (k : α → LoadM β) : LoadM β :=
  fun tr =>
    match m tr with
    | (.ok a, tr') => k a tr'
    | (.error e, tr') => (.error e, tr')

/-- A step with no effect. -/
def LoadM.pure {α : Type} (a : α) : LoadM α :=
  fun tr => (.ok a, tr)

/-- A typed `Find(&var, key, sec)` with a default already in `var`:
records the lookup event; on a conversion error the exception aborts
the load, otherwise the variable ends up holding `r.getD d`. -/
def findD {α : Type} (r : FindResult α) (d : α) (chan : LookupChan)
    (key sec : String) : LoadM α :=
  fun tr =>
    if r.isErr then (.error (), tr ++ [Ev.lookup chan key sec true])
    else (.ok (r.getD d), tr ++ [Ev.lookup chan key sec false])

/-- The raw string `Find(key, sec)` (used for `COMP_FILE`): never
throws, returns `none` for `NULL`. -/
def findRaw (r : Option String) (key sec : String) : LoadM (Option String) :=
  fun tr => (.ok r, tr ++ [Ev.lookup .raw key sec false])

/-- One checked controller call: the C pattern
`if (0 != emcJointSetX(...)) return -1;`.  Records the call with its
return code and aborts when it is non-zero. -/
def checkedCall (resp : CtrlCall → Int) (c : CtrlCall) : LoadM Unit :=
  fun tr =>
    if resp c = 0 then (.ok (), tr ++ [Ev.call c (resp c)])
    else (.error (), tr ++ [Ev.call c (resp c)])

/-- `sprintf(jointString, "JOINT_%d", joint)`. -/
def jointString (joint : Int) : String :=
  "JOINT_" ++ toString joint

/-- The statement sequence inside the `try` block of `loadJoint` of
`src/emc/ini/inijoint.cc`, as a chain of load steps. -/
def loadJointBody (env : Env) (resp : CtrlCall → Int) (joint : Int)
    (src : ConfigSource) : LoadM Unit :=
  let s := jointString joint;
    -- set joint type
    LoadM.bind (findD (src.findJointType "TYPE" s) JointType.linear .typ "TYPE" s) fun jointType =>
    LoadM.bind (checkedCall resp (.setJointType joint jointType)) fun _ =>
    -- set units (default and channel depend on the joint type)
    LoadM.bind (if jointType = JointType.linear then
        findD (src.findLinearUnits "UNITS" s) env.trajLinearUnits .linearUnits "UNITS" s
      else
        findD (src.findAngularUnits "UNITS" s) env.trajAngularUnits .angularUnits "UNITS" s) fun units =>
    LoadM.bind (checkedCall resp (.setUnits joint units)) fun _ =>
    -- set backlash
    LoadM.bind (findD (src.findFloat "BACKLASH" s) 0 .float "BACKLASH" s) fun backlash =>
    LoadM.bind (checkedCall resp (.setBacklash joint backlash)) fun _ =>
    -- set min position limit
    LoadM.bind (findD (src.findFloat "MIN_LIMIT" s) (-(10 ^ 99 : ℚ)) .float "MIN_LIMIT" s) fun minLimit =>
    LoadM.bind (checkedCall resp (.setMinPositionLimit joint minLimit)) fun _ =>
    -- set max position limit
    LoadM.bind (findD (src.findFloat "MAX_LIMIT" s) ((10 ^ 99 : ℚ)) .float "MAX_LIMIT" s) fun maxLimit =>
    LoadM.bind (checkedCall resp (.setMaxPositionLimit joint maxLimit)) fun _ =>
    -- set following error limit (at max speed)
    LoadM.bind (findD (src.findFloat "FERROR" s) 1 .float "FERROR" s) fun ferror =>
    LoadM.bind (checkedCall resp (.setFerror joint ferror)) fun _ =>
    -- do MIN_FERROR, if it's there; the C code reuses the `ferror`
    -- variable, so an absent key keeps the FERROR value
    LoadM.bind (findD (src.findFloat "MIN_FERROR" s) ferror .float "MIN_FERROR" s) fun minFerror =>
    LoadM.bind (checkedCall resp (.setMinFerror joint minFerror)) fun _ =>
    -- resolve the homing parameters, then one combined apply call
    LoadM.bind (findD (src.findFloat "HOME" s) 0 .float "HOME" s) fun home =>
    LoadM.bind (findD (src.findFloat "HOME_OFFSET" s) 0 .float "HOME_OFFSET" s) fun offset =>
    LoadM.bind (findD (src.findFloat "HOME_SEARCH_VEL" s) 0 .float "HOME_SEARCH_VEL" s) fun search_vel =>
    LoadM.bind (findD (src.findFloat "HOME_LATCH_VEL" s) 0 .float "HOME_LATCH_VEL" s) fun latch_vel =>
    LoadM.bind (findD (src.findFloat "HOME_VEL" s) (-1) .float "HOME_VEL" s) fun home_vel =>
    LoadM.bind (findD (src.findBool "HOME_IS_SHARED" s) false .bool "HOME_IS_SHARED" s) fun is_shared =>
    LoadM.bind (findD (src.findBool "HOME_USE_INDEX" s) false .bool "HOME_USE_INDEX" s) fun use_index =>
    LoadM.bind (findD (src.findBool "HOME_IGNORE_LIMITS" s) false .bool "HOME_IGNORE_LIMITS" s) fun ignore_limits =>
    LoadM.bind (findD (src.findInt "HOME_SEQUENCE" s) (-1) .int "HOME_SEQUENCE" s) fun sequence =>
    LoadM.bind (findD (src.findInt "VOLATILE_HOME" s) 0 .int "VOLATILE_HOME" s) fun volatile_home =>
    LoadM.bind (checkedCall resp (.setHomingParams joint home offset home_vel search_vel
        latch_vel use_index ignore_limits is_shared sequence volatile_home)) fun _ =>
    -- set maximum velocity
    LoadM.bind (findD (src.findFloat "MAX_VELOCITY" s) env.defaultJointMaxVelocity .float "MAX_VELOCITY" s) fun maxVelocity =>
    LoadM.bind (checkedCall resp (.setMaxVelocity joint maxVelocity)) fun _ =>
    -- set maximum acceleration
    LoadM.bind (findD (src.findFloat "MAX_ACCELERATION" s) env.defaultJointMaxAcceleration .float "MAX_ACCELERATION" s) fun maxAcceleration =>
    LoadM.bind (checkedCall resp (.setMaxAcceleration joint maxAcceleration)) fun _ =>
    -- compensation file: type (defaulted), then optional path
    LoadM.bind (findD (src.findInt "COMP_FILE_TYPE" s) 0 .int "COMP_FILE_TYPE" s) fun comp_file_type =>
    LoadM.bind (findRaw (src.findString "COMP_FILE" s) "COMP_FILE" s) fun inistring =>
    match inistring with
    | some path => checkedCall resp (.loadComp joint path comp_file_type)
    | none => LoadM.pure ()

/-- Shallow embedding of `loadJoint` of `src/emc/ini/inijoint.cc`: run
the `try` block; `catch` returns `-1`; on success, lastly activate the
joint — the activate call's return code is recorded in the trace but
never checked, exactly as in the source — and return `0`. -/
def loadJoint (env : Env) (resp : CtrlCall → Int) (joint : Int)
    (src : ConfigSource) : Int × List Ev :=
  match loadJointBody env resp joint src [] with
  | (.ok _, tr) =>
      (0, tr ++ [Ev.call (.activate joint) (resp (CtrlCall.activate joint))])
  | (.error _, tr) => (-1, tr)

/-- The sequence of events `loadJoint` would traverse if nothing
aborted: each lookup with its actual conversion-error flag and each
controller call with its actual return code, in program order, up to
but not including the final activate call.  `loadJoint` realises the
longest good prefix of this list (plus the first bad event, if any). -/
def innerSeq (env : Env) (resp : CtrlCall → Int) (joint : Int)
    (src : ConfigSource) : List Ev :=
  let s := jointString joint
  let rTy := src.findJointType "TYPE" s
  let jt := rTy.getD JointType.linear
  let uChan : LookupChan := if jt = JointType.linear then .linearUnits else .angularUnits
  let rU := if jt = JointType.linear then src.findLinearUnits "UNITS" s else src.findAngularUnits "UNITS" s
  let uVal := rU.getD (if jt = JointType.linear then env.trajLinearUnits else env.trajAngularUnits)
  let rB := src.findFloat "BACKLASH" s
  let rMin := src.findFloat "MIN_LIMIT" s
  let rMax := src.findFloat "MAX_LIMIT" s
  let rF := src.findFloat "FERROR" s
  let fe := rF.getD 1
  let rMF := src.findFloat "MIN_FERROR" s
  let rH := src.findFloat "HOME" s
  let rHO := src.findFloat "HOME_OFFSET" s
  let rHS := src.findFloat "HOME_SEARCH_VEL" s
  let rHL := src.findFloat "HOME_LATCH_VEL" s
  let rHV := src.findFloat "HOME_VEL" s
  let rIS := src.findBool "HOME_IS_SHARED" s
  let rUI := src.findBool "HOME_USE_INDEX" s
  let rIL := src.findBool "HOME_IGNORE_LIMITS" s
  let rSeq := src.findInt "HOME_SEQUENCE" s
  let rVH := src.findInt "VOLATILE_HOME" s
  let rMV := src.findFloat "MAX_VELOCITY" s
  let rMA := src.findFloat "MAX_ACCELERATION" s
  let rCT := src.findInt "COMP_FILE_TYPE" s
  let homingCall : CtrlCall := .setHomingParams joint (rH.getD 0) (rHO.getD 0) (rHV.getD (-1))
      (rHS.getD 0) (rHL.getD 0) (rUI.getD false) (rIL.getD false) (rIS.getD false)
      (rSeq.getD (-1)) (rVH.getD 0)
  [Ev.lookup .typ "TYPE" s rTy.isErr,
   Ev.call (.setJointType joint jt) (resp (.setJointType joint jt)),
   Ev.lookup uChan "UNITS" s rU.isErr,
   Ev.call (.setUnits joint uVal) (resp (.setUnits joint uVal)),
   Ev.lookup .float "BACKLASH" s rB.isErr,
   Ev.call (.setBacklash joint (rB.getD 0)) (resp (.setBacklash joint (rB.getD 0))),
   Ev.lookup .float "MIN_LIMIT" s rMin.isErr,
   Ev.call (.setMinPositionLimit joint (rMin.getD (-(10 ^ 99 : ℚ))))
     (resp (.setMinPositionLimit joint (rMin.getD (-(10 ^ 99 : ℚ))))),
   Ev.lookup .float "MAX_LIMIT" s rMax.isErr,
   Ev.call (.setMaxPositionLimit joint (rMax.getD ((10 ^ 99 : ℚ))))
     (resp (.setMaxPositionLimit joint (rMax.getD ((10 ^ 99 : ℚ))))),
   Ev.lookup .float "FERROR" s rF.isErr,
   Ev.call (.setFerror joint fe) (resp (.setFerror joint fe)),
   Ev.lookup .float "MIN_FERROR" s rMF.isErr,
   Ev.call (.setMinFerror joint (rMF.getD fe)) (resp (.setMinFerror joint (rMF.getD fe))),
   Ev.lookup .float "HOME" s rH.isErr,
   Ev.lookup .float "HOME_OFFSET" s rHO.isErr,
   Ev.lookup .float "HOME_SEARCH_VEL" s rHS.isErr,
   Ev.lookup .float "HOME_LATCH_VEL" s rHL.isErr,
   Ev.lookup .float "HOME_VEL" s rHV.isErr,
   Ev.lookup .bool "HOME_IS_SHARED" s rIS.isErr,
   Ev.lookup .bool "HOME_USE_INDEX" s rUI.isErr,
   Ev.lookup .bool "HOME_IGNORE_LIMITS" s rIL.isErr,
   Ev.lookup .int "HOME_SEQUENCE" s rSeq.isErr,
   Ev.lookup .int "VOLATILE_HOME" s rVH.isErr,
   Ev.call homingCall (resp homingCall),
   Ev.lookup .float "MAX_VELOCITY" s rMV.isErr,
   Ev.call (.setMaxVelocity joint (rMV.getD env.defaultJointMaxVelocity))
     (resp (.setMaxVelocity joint (rMV.getD env.defaultJointMaxVelocity))),
   Ev.lookup .float "MAX_ACCELERATION" s rMA.isErr,
   Ev.call (.setMaxAcceleration joint (rMA.getD env.defaultJointMaxAcceleration))
     (resp (.setMaxAcceleration joint (rMA.getD env.defaultJointMaxAcceleration))),
   Ev.lookup .int "COMP_FILE_TYPE" s rCT.isErr,
   Ev.lookup .raw "COMP_FILE" s false] ++
  (match src.findString "COMP_FILE" s with
   | some path =>
       [Ev.call (.loadComp joint path (rCT.getD 0)) (resp (.loadComp joint path (rCT.getD 0)))]
   | none => [])

/-- Shallow embedding of `iniJoint` of `src/emc/ini/inijoint.cc`: open
the INI file (modelled by a map `fs` from filenames to parsed
sources), read the mandatory `AXES` count from `[TRAJ]` (this
`EmcIniFile` has `ERR_TAG_NOT_FOUND | ERR_SECTION_NOT_FOUND |
ERR_CONVERSION` enabled, so an absent count also aborts), bounds-check
the joint index, then delegate to `loadJoint`. -/
def iniJoint (env : Env) (resp : CtrlCall → Int)
    (fs : String → Option ConfigSource) (joint : Int)
    (filename : String) : Int × List Ev :=
  match fs filename with
  | none => (-1, [])
  | some src =>
    match src.findInt "AXES" "TRAJ" with
    | .convErr => (-1, [Ev.lookup .int "AXES" "TRAJ" true])
    | .absent => (-1, [Ev.lookup .int "AXES" "TRAJ" false])
    | .ok axes =>
      if joint < 0 ∨ joint ≥ axes then
        -- requested joint exceeds machine axes
        (-1, [Ev.lookup .int "AXES" "TRAJ" false])
      else
        let r := loadJoint env resp joint src
        ((if r.1 ≠ 0 then -1 else 0), Ev.lookup .int "AXES" "TRAJ" false :: r.2)

/-- `INIFILE_MIN_FLOAT_PRECISION`. -/
def INIFILE_MIN_FLOAT_PRECISION : Nat := 3

/-- The first scanning loop of `iniGetFloatPrec`: advance to the first
decimal point, returning the remainder of the string after it, or
`none` when the terminator is reached first. -/
def findPoint : List Char → Option (List Char)
  | [] => none
  | c :: rest => if c = '.' then some rest else findPoint rest

/-- The second scanning loop of `iniGetFloatPrec`: count the digits
until a non-digit or the end of the string. -/
def countDigits : List Char → Nat
  | [] => 0
  | c :: rest => if c.isDigit then countDigits rest + 1 else 0

/-- Shallow embedding of `iniGetFloatPrec`: minimum precision when the
literal has no decimal point, otherwise the digit count after the
point floored at the minimum. -/
def iniGetFloatPrec (str : String) : Nat :=
  match findPoint str.data with
  | none => INIFILE_MIN_FLOAT_PRECISION
  | some rest =>
    let prec := countDigits rest
    if prec > INIFILE_MIN_FLOAT_PRECISION then prec else INIFILE_MIN_FLOAT_PRECISION

/-- Shallow embedding of `iniFormatFloat`:
`sprintf(fmt, "%s = %%.%df\n", var, iniGetFloatPrec(val))`, modelled
as the produced format string. -/
def iniFormatFloat (var val : String) : String :=
  var ++ " = %." ++ toString (iniGetFloatPrec val) ++ "f\n"

/-- Shallow embedding of `iniFormatFloat2`: the same precision, taken
from the first number of the pair, used for both fields. -/
def iniFormatFloat2 (var val : String) : String :=
  let prec := iniGetFloatPrec val
  var ++ " = %." ++ toString prec ++ "f %." ++ toString prec ++ "f\n"

/-- A configuration source with no per-unit keys at all. -/
def emptySource : ConfigSource :=
  { findJointType := fun _ _ => .absent
    findLinearUnits := fun _ _ => .absent
    findAngularUnits := fun _ _ => .absent
    findFloat := fun _ _ => .absent
    findBool := fun _ _ => .absent
    findInt := fun _ _ => .absent
    findString := fun _ _ => none }

/-- A concrete environment used by witnesses. -/
def env0 : Env :=
  { trajLinearUnits := 2
    trajAngularUnits := 3
    defaultJointMaxVelocity := 5
    defaultJointMaxAcceleration := 7 }

/-- A configuration source whose `BACKLASH` value is present but
malformed (raises a conversion error); all other keys are absent. -/
def srcBadBacklash : ConfigSource :=
  { findJointType := fun _ _ => .absent
    findLinearUnits := fun _ _ => .absent
    findAngularUnits := fun _ _ => .absent
    findFloat := fun key _ => if key = "BACKLASH" then .convErr else .absent
    findBool := fun _ _ => .absent
    findInt := fun _ _ => .absent
    findString := fun _ _ => none }

/-- A configuration source whose `[TRAJ] AXES` count is 3; all other
keys are absent. -/
def srcAxes3 : ConfigSource :=
  { findJointType := fun _ _ => .absent
    findLinearUnits := fun _ _ => .absent
    findAngularUnits := fun _ _ => .absent
    findFloat := fun _ _ => .absent
    findBool := fun _ _ => .absent
    findInt := fun key sec => if key = "AXES" ∧ sec = "TRAJ" then .ok 3 else .absent
    findString := fun _ _ => none }

/-- A one-document filesystem: only `machine.ini` opens. -/
def fs0 : String → Option ConfigSource :=
  fun filename => if filename = "machine.ini" then some srcAxes3 else none

/-- The specification's independent description of `inferPrecision`
(§4.3 of the spec): a literal without a decimal point yields the fixed
minimum precision 3; otherwise the run of decimal digits immediately
after the first point, stopping at the first non-digit or the end,
floored at 3.  Stated with library scanners so it can be compared with
the source's `iniGetFloatPrec`. -/
def specPrec (s : String) : Nat :=
  if '.' ∈ s.data then
    max 3 (((s.data.dropWhile fun c => c != '.').tail).takeWhile Char.isDigit).length
  else 3

/-- The event sequence of a load from a source with no per-unit keys,
when the controller accepts every setter: every lookup comes back
absent (no conversion error), and every field is applied at its
documented default — joint type LINEAR, units from the trajectory
linear-units value, backlash 0, position limits −1e99/+1e99, ferror 1,
min-ferror inheriting ferror's 1, the homing group
(home 0, offset 0, home_vel −1, search_vel 0, latch_vel 0,
use_index/ignore_limits/is_shared false, sequence −1, volatile_home 0),
max velocity/acceleration from the system-wide constants, and no
`loadComp` call since `COMP_FILE` is absent (`COMP_FILE_TYPE` is still
looked up, resolving to its default 0). -/
def defaultEvents (env : Env) (joint : Int) : List Ev :=
  let s := jointString joint;
  [Ev.lookup .typ "TYPE" s false,
   Ev.call (.setJointType joint JointType.linear) 0,
   Ev.lookup .linearUnits "UNITS" s false,
   Ev.call (.setUnits joint env.trajLinearUnits) 0,
   Ev.lookup .float "BACKLASH" s false,
   Ev.call (.setBacklash joint 0) 0,
   Ev.lookup .float "MIN_LIMIT" s false,
   Ev.call (.setMinPositionLimit joint (-(10 ^ 99 : ℚ))) 0,
   Ev.lookup .float "MAX_LIMIT" s false,
   Ev.call (.setMaxPositionLimit joint ((10 ^ 99 : ℚ))) 0,
   Ev.lookup .float "FERROR" s false,
   Ev.call (.setFerror joint 1) 0,
   Ev.lookup .float "MIN_FERROR" s false,
   Ev.call (.setMinFerror joint 1) 0,
   Ev.lookup .float "HOME" s false,
   Ev.lookup .float "HOME_OFFSET" s false,
   Ev.lookup .float "HOME_SEARCH_VEL" s false,
   Ev.lookup .float "HOME_LATCH_VEL" s false,
   Ev.lookup .float "HOME_VEL" s false,
   Ev.lookup .bool "HOME_IS_SHARED" s false,
   Ev.lookup .bool "HOME_USE_INDEX" s false,
   Ev.lookup .bool "HOME_IGNORE_LIMITS" s false,
   Ev.lookup .int "HOME_SEQUENCE" s false,
   Ev.lookup .int "VOLATILE_HOME" s false,
   Ev.call (.setHomingParams joint 0 0 (-1) 0 0 false false false (-1) 0) 0,
   Ev.lookup .float "MAX_VELOCITY" s false,
   Ev.call (.setMaxVelocity joint env.defaultJointMaxVelocity) 0,
   Ev.lookup .float "MAX_ACCELERATION" s false,
   Ev.call (.setMaxAcceleration joint env.defaultJointMaxAcceleration) 0,
   Ev.lookup .int "COMP_FILE_TYPE" s false,
   Ev.lookup .raw "COMP_FILE" s false]

/-- Run a sequence of events: consume good events, stop (recording the
offending event) at the first bad one. -/
def runSeq (acc : List Ev) : List Ev → Bool × List Ev
  | [] => (true, acc)
  | e :: rest => if evGood e then runSeq (acc ++ [e]) rest else (false, acc ++ [e])

/-- The run of an event list mapped into the load-result shape:
success value and full trace when every event is good, error and the
good part plus the first bad event otherwise. -/
def runSeqE (acc l : List Ev) : Except Unit Unit × List Ev :=
  match runSeq acc l with
  | (true, tr) => (.ok (), tr)
  | (false, tr) => (.error (), tr)

/-- `Sim m l`: started from any trace, the load step `m` appends
exactly the run of the event list `l` — all of `l` on success, the
good part of `l` plus its first bad event on failure. -/
def Sim (m : LoadM Unit) (l : List Ev) : Prop :=
  ∀ acc, m acc = runSeqE acc l

/-- The call kinds the inner event sequence carries: the ten setters
in their fixed order, plus `loadComp` exactly when a `COMP_FILE` path
is present. -/
def innerKinds (o : Option String) : List CallKind :=
  [.kSetJointType, .kSetUnits, .kSetBacklash, .kSetMinPositionLimit,
   .kSetMaxPositionLimit, .kSetFerror, .kSetMinFerror, .kSetHomingParams,
   .kSetMaxVelocity, .kSetMaxAcceleration] ++
  (match o with
   | some _ => [CallKind.kLoadComp]
   | none => [])

theorem bind_findD {α β : Type} (r : FindResult α) (d : α) (chan : LookupChan)
    (key sec : String) (kont : α → LoadM β) (tr : List Ev) :
    LoadM.bind (findD r d chan key sec) kont tr =
      if r.isErr then (.error (), tr ++ [Ev.lookup chan key sec true])
      else kont (r.getD d) (tr ++ [Ev.lookup chan key sec false]) := by
  by_cases h : r.isErr <;> simp [LoadM.bind, findD, h]

theorem bind_checkedCall {β : Type} (resp : CtrlCall → Int) (c : CtrlCall)
    (kont : Unit → LoadM β) (tr : List Ev) :
    LoadM.bind (checkedCall resp c) kont tr =
      if resp c = 0 then kont () (tr ++ [Ev.call c (resp c)])
      else (.error (), tr ++ [Ev.call c (resp c)]) := by
  by_cases h : resp c = 0 <;> simp [LoadM.bind, checkedCall, h]

theorem bind_findRaw {β : Type} (r : Option String) (key sec : String)
    (kont : Option String → LoadM β) (tr : List Ev) :
    LoadM.bind (findRaw r key sec) kont tr =
      kont r (tr ++ [Ev.lookup .raw key sec false]) := by
  simp [LoadM.bind, findRaw]


theorem runSeqE_nil (acc : List Ev) : runSeqE acc [] = (.ok (), acc) := by
  simp [runSeqE, runSeq]

theorem runSeqE_cons_good {e : Ev} (h : evGood e = true) (acc l : List Ev) :
    runSeqE acc (e :: l) = runSeqE (acc ++ [e]) l := by
  simp [runSeqE, runSeq, h]

theorem runSeqE_cons_bad {e : Ev} (h : evGood e = false) (acc l : List Ev) :
    runSeqE acc (e :: l) = (.error (), acc ++ [e]) := by
  simp [runSeqE, runSeq, h]


theorem Sim.unit : Sim (LoadM.pure ()) [] := by
  intro acc
  simp [LoadM.pure, runSeqE_nil]

theorem Sim.findD {α : Type} {r : FindResult α} {d : α} {chan : LookupChan}
    {key sec : String} {kont : α → LoadM Unit} {l : List Ev}
    (hk : Sim (kont (r.getD d)) l) :
    Sim (LoadM.bind (findD r d chan key sec) kont)
      (Ev.lookup chan key sec r.isErr :: l) := by
  intro acc
  rw [bind_findD]
  by_cases h : r.isErr = true
  · rw [if_pos h, h, runSeqE_cons_bad (by simp [evGood])]
  · have h' : r.isErr = false := by simpa using h
    rw [if_neg h, h', runSeqE_cons_good (by simp [evGood])]
    exact hk _

theorem Sim.check {resp : CtrlCall → Int} {c : CtrlCall}
    {kont : Unit → LoadM Unit} {l : List Ev} (hk : Sim (kont ()) l) :
    Sim (LoadM.bind (checkedCall resp c) kont) (Ev.call c (resp c) :: l) := by
  intro acc
  rw [bind_checkedCall]
  by_cases h : resp c = 0
  · rw [if_pos h, runSeqE_cons_good (by simp [evGood, h])]
    exact hk _
  · rw [if_neg h, runSeqE_cons_bad (by simp [evGood, h])]

theorem Sim.checkLast {resp : CtrlCall → Int} {c : CtrlCall} :
    Sim (checkedCall resp c) [Ev.call c (resp c)] := by
  intro acc
  unfold checkedCall
  by_cases h : resp c = 0
  · rw [if_pos h, runSeqE_cons_good (by simp [evGood, h]), runSeqE_nil]
  · rw [if_neg h, runSeqE_cons_bad (by simp [evGood, h])]

theorem Sim.raw {r : Option String} {key sec : String}
    {kont : Option String → LoadM Unit} {l : List Ev} (hk : Sim (kont r) l) :
    Sim (LoadM.bind (findRaw r key sec) kont)
      (Ev.lookup .raw key sec false :: l) := by
  intro acc
  rw [bind_findRaw, runSeqE_cons_good (by simp [evGood])]
  exact hk _
/-- The `try` block of `loadJoint` consumes exactly its event
sequence. -/
theorem loadJointBody_sim (env : Env) (resp : CtrlCall → Int) (joint : Int)
    (src : ConfigSource) :
    Sim (loadJointBody env resp joint src) (innerSeq env resp joint src) := by
  unfold loadJointBody innerSeq
  simp only [List.cons_append, List.nil_append]
  apply Sim.findD
  apply Sim.check
  by_cases hjt : (src.findJointType "TYPE" (jointString joint)).getD JointType.linear
      = JointType.linear
  · simp only [if_pos hjt]
    apply Sim.findD
    apply Sim.check
    apply Sim.findD
    apply Sim.check
    apply Sim.findD
    apply Sim.check
    apply Sim.findD
    apply Sim.check
    apply Sim.findD
    apply Sim.check
    apply Sim.findD
    apply Sim.check
    apply Sim.findD
    apply Sim.findD
    apply Sim.findD
    apply Sim.findD
    apply Sim.findD
    apply Sim.findD
    apply Sim.findD
    apply Sim.findD
    apply Sim.findD
    apply Sim.findD
    apply Sim.check
    apply Sim.findD
    apply Sim.check
    apply Sim.findD
    apply Sim.check
    apply Sim.findD
    apply Sim.raw
    cases src.findString "COMP_FILE" (jointString joint)
    · exact Sim.unit
    · exact Sim.checkLast
  · simp only [if_neg hjt]
    apply Sim.findD
    apply Sim.check
    apply Sim.findD
    apply Sim.check
    apply Sim.findD
    apply Sim.check
    apply Sim.findD
    apply Sim.check
    apply Sim.findD
    apply Sim.check
    apply Sim.findD
    apply Sim.check
    apply Sim.findD
    apply Sim.findD
    apply Sim.findD
    apply Sim.findD
    apply Sim.findD
    apply Sim.findD
    apply Sim.findD
    apply Sim.findD
    apply Sim.findD
    apply Sim.findD
    apply Sim.check
    apply Sim.findD
    apply Sim.check
    apply Sim.findD
    apply Sim.check
    apply Sim.findD
    apply Sim.raw
    cases src.findString "COMP_FILE" (jointString joint)
    · exact Sim.unit
    · exact Sim.checkLast

/-- Master characterization of `loadJoint`: it realises exactly the
run of its event sequence — the whole sequence plus the (unchecked)
activate call on success, the good part up to and including the first
bad event on failure. -/
theorem loadJoint_eq (env : Env) (resp : CtrlCall → Int) (joint : Int)
    (src : ConfigSource) :
    loadJoint env resp joint src =
      (if (runSeq [] (innerSeq env resp joint src)).1 = true
       then (0, (runSeq [] (innerSeq env resp joint src)).2 ++
              [Ev.call (CtrlCall.activate joint) (resp (CtrlCall.activate joint))])
       else (-1, (runSeq [] (innerSeq env resp joint src)).2)) := by
  have h := loadJointBody_sim env resp joint src []
  unfold loadJoint
  rw [h]
  unfold runSeqE
  rcases hR : runSeq [] (innerSeq env resp joint src) with ⟨b, tr⟩
  cases b <;> simp

theorem runSeq_acc (acc l : List Ev) :
    runSeq acc l = ((runSeq [] l).1, acc ++ (runSeq [] l).2) := by
  induction l generalizing acc with
  | nil => simp [runSeq]
  | cons e rest ih =>
    by_cases h : evGood e = true
    · simp only [runSeq, h, if_true, List.nil_append]
      rw [ih (acc ++ [e]), ih [e]]
      simp
    · simp [runSeq, h]

theorem runSeq_ok_iff (l : List Ev) :
    (runSeq [] l).1 = true ↔ ∀ e ∈ l, evGood e = true := by
  induction l with
  | nil => simp [runSeq]
  | cons e rest ih =>
    by_cases h : evGood e = true
    · simp only [runSeq, h, if_true]
      rw [runSeq_acc]
      simp [h, ih]
    · simp [runSeq, h]

theorem runSeq_ok_trace (l : List Ev) (h : (runSeq [] l).1 = true) :
    (runSeq [] l).2 = l := by
  induction l with
  | nil => simp [runSeq]
  | cons e rest ih =>
    by_cases hg : evGood e = true
    · simp only [runSeq, hg, if_true] at h ⊢
      rw [runSeq_acc] at h ⊢
      simp at h ⊢
      exact ih h
    · simp [runSeq, hg] at h
  
theorem runSeq_fail (l : List Ev) (h : (runSeq [] l).1 = false) :
    ∃ pre b t, l = pre ++ b :: t ∧ (∀ e ∈ pre, evGood e = true) ∧
      evGood b = false ∧ (runSeq [] l).2 = pre ++ [b] := by
  induction l with
  | nil => simp [runSeq] at h
  | cons e rest ih =>
    by_cases hg : evGood e = true
    · have hstep : runSeq [] (e :: rest) = runSeq [e] rest := by
        simp [runSeq, hg]
      have h' : (runSeq [] rest).1 = false := by
        rw [hstep, runSeq_acc [e] rest] at h
        simpa using h
      obtain ⟨pre, b, t, h1, h2, h3, h4⟩ := ih h'
      refine ⟨e :: pre, b, t, by simp [h1], ?_, h3, ?_⟩
      · intro x hx
        rcases List.mem_cons.mp hx with hx | hx
        · exact hx ▸ hg
        · exact h2 x hx
      · rw [hstep, runSeq_acc [e] rest]
        simp [h4]
    · simp only [Bool.not_eq_true] at hg
      refine ⟨[], e, rest, rfl, by simp, hg, ?_⟩
      simp [runSeq, hg]


theorem innerSeq_calls (env : Env) (resp : CtrlCall → Int) (joint : Int)
    (src : ConfigSource) :
    callKinds (innerSeq env resp joint src) =
      innerKinds (src.findString "COMP_FILE" (jointString joint)) := by
  unfold innerSeq innerKinds callKinds
  cases hfs : src.findString "COMP_FILE" (jointString joint) <;> simp [hfs, kindOf]

theorem mem_callKinds {tr : List Ev} {c : CtrlCall} {ret : Int}
    (h : Ev.call c ret ∈ tr) : kindOf c ∈ callKinds tr :=
  List.mem_filterMap.mpr ⟨_, h, rfl⟩

theorem callKinds_append (a b : List Ev) :
    callKinds (a ++ b) = callKinds a ++ callKinds b := by
  simp [callKinds]

/-- Case analysis on a whole load: either every event of the sequence
was good and the trace is the sequence followed by the activate call,
or the load failed and the trace is the good part of the sequence
followed by its first bad event. -/
theorem loadJoint_trace_cases (env : Env) (resp : CtrlCall → Int) (joint : Int)
    (src : ConfigSource) :
    ((loadJoint env resp joint src).1 = 0 ∧
      (loadJoint env resp joint src).2 =
        innerSeq env resp joint src ++
          [Ev.call (CtrlCall.activate joint) (resp (CtrlCall.activate joint))] ∧
      (∀ e ∈ innerSeq env resp joint src, evGood e = true))
    ∨ ((loadJoint env resp joint src).1 = -1 ∧
       ∃ pre b t, innerSeq env resp joint src = pre ++ b :: t ∧
         (∀ e ∈ pre, evGood e = true) ∧ evGood b = false ∧
         (loadJoint env resp joint src).2 = pre ++ [b]) := by
  rw [loadJoint_eq]
  rcases hR : runSeq [] (innerSeq env resp joint src) with ⟨b, tr⟩
  cases b
  · right
    have h1 : (runSeq [] (innerSeq env resp joint src)).1 = false := by rw [hR]
    obtain ⟨pre, bad, t, hsplit, hpre, hbad, htr⟩ := runSeq_fail _ h1
    refine ⟨by simp [hR], pre, bad, t, hsplit, hpre, hbad, ?_⟩
    rw [hR] at htr
    simp [hR, htr]
  · left
    have h1 : (runSeq [] (innerSeq env resp joint src)).1 = true := by rw [hR]
    have h2 := runSeq_ok_trace _ h1
    rw [hR] at h2
    have h2' : tr = innerSeq env resp joint src := by simpa using h2
    refine ⟨by simp [hR], by simp [hR, h2'], (runSeq_ok_iff _).mp h1⟩

theorem findPoint_eq (l : List Char) :
    findPoint l =
      if '.' ∈ l then some ((l.dropWhile fun c => c != '.').tail) else none := by
  induction l with
  | nil => simp [findPoint]
  | cons c rest ih =>
    by_cases hc : c = '.'
    · subst hc
      have hb : ('.' != '.') = false := by simp
      simp [findPoint, List.dropWhile, hb]
    · have hb : (c != '.') = true := by simp [hc]
      simp [findPoint, hc, ih, List.dropWhile, hb, eq_comm]

theorem countDigits_eq (l : List Char) :
    countDigits l = (l.takeWhile Char.isDigit).length := by
  induction l with
  | nil => simp [countDigits]
  | cons c rest ih =>
    by_cases hd : c.isDigit <;> simp [countDigits, List.takeWhile, hd, ih]

/-- The source's precision scanner agrees with the spec's description
of it everywhere. -/
theorem iniGetFloatPrec_eq_specPrec (s : String) :
    iniGetFloatPrec s = specPrec s := by
  unfold iniGetFloatPrec specPrec INIFILE_MIN_FLOAT_PRECISION
  rw [findPoint_eq]
  by_cases h : '.' ∈ s.data
  · simp only [h, if_true]
    rw [countDigits_eq]
    split <;> omega
  · simp [h]

/-- A load from the empty source under a controller that accepts every
setter (the activate call may still be rejected — its return code is
not checked) produces exactly the default event sequence and succeeds. -/
theorem loadJoint_emptySource (env : Env) (joint : Int) (resp : CtrlCall → Int)
    (h : ∀ c, kindOf c ≠ CallKind.kActivate → resp c = 0) :
    loadJoint env resp joint emptySource =
      (0, defaultEvents env joint ++
        [Ev.call (CtrlCall.activate joint) (resp (CtrlCall.activate joint))]) := by
  have hseq : innerSeq env resp joint emptySource = defaultEvents env joint := by
    unfold innerSeq emptySource defaultEvents
    simp [h, kindOf, FindResult.getD, FindResult.isErr]
  have hgood : ∀ e ∈ defaultEvents env joint, evGood e = true := by
    intro e he
    simp only [defaultEvents] at he
    fin_cases he <;> rfl
  have hrun : runSeq [] (defaultEvents env joint) = (true, defaultEvents env joint) := by
    have h1 : (runSeq [] (defaultEvents env joint)).1 = true := (runSeq_ok_iff _).mpr hgood
    have h2 := runSeq_ok_trace _ h1
    rcases hR : runSeq [] (defaultEvents env joint) with ⟨b, tr⟩
    rw [hR] at h1 h2
    simp at h1 h2
    rw [h1, h2]
  rw [loadJoint_eq, hseq, hrun]
  simp

/-- The whole trace of a load is an initial segment of the full event
sequence (the inner sequence followed by the activate call). -/
theorem loadJoint_trace_extends (env : Env) (resp : CtrlCall → Int) (joint : Int)
    (src : ConfigSource) :
    ∃ t, (loadJoint env resp joint src).2 ++ t =
      innerSeq env resp joint src ++
        [Ev.call (CtrlCall.activate joint) (resp (CtrlCall.activate joint))] := by
  rcases loadJoint_trace_cases env resp joint src with
    ⟨-, htr, -⟩ | ⟨-, pre, b, t, hsplit, -, -, htr⟩
  · exact ⟨[], by simp [htr]⟩
  · refine ⟨t ++ [Ev.call (CtrlCall.activate joint) (resp (CtrlCall.activate joint))], ?_⟩
    rw [htr, hsplit]
    simp

theorem activate_not_mem_innerSeq (env : Env) (resp : CtrlCall → Int) (joint : Int)
    (src : ConfigSource) {j r : Int} :
    Ev.call (CtrlCall.activate j) r ∉ innerSeq env resp joint src := by
  intro h
  unfold innerSeq at h
  cases hfs : src.findString "COMP_FILE" (jointString joint) <;> simp [hfs] at h

theorem setFerror_payload (env : Env) (resp : CtrlCall → Int) (joint : Int)
    (src : ConfigSource) {j : Int} {v : ℚ} {r : Int}
    (h : Ev.call (CtrlCall.setFerror j v) r ∈ innerSeq env resp joint src) :
    j = joint ∧ v = (src.findFloat "FERROR" (jointString joint)).getD 1 := by
  unfold innerSeq at h
  cases hfs : src.findString "COMP_FILE" (jointString joint) <;> simp [hfs] at h <;> tauto

theorem setMinFerror_payload (env : Env) (resp : CtrlCall → Int) (joint : Int)
    (src : ConfigSource) {j : Int} {v : ℚ} {r : Int}
    (h : Ev.call (CtrlCall.setMinFerror j v) r ∈ innerSeq env resp joint src) :
    j = joint ∧
    v = (src.findFloat "MIN_FERROR" (jointString joint)).getD
          ((src.findFloat "FERROR" (jointString joint)).getD 1) := by
  unfold innerSeq at h
  cases hfs : src.findString "COMP_FILE" (jointString joint) <;> simp [hfs] at h <;> tauto

theorem setUnits_payload (env : Env) (resp : CtrlCall → Int) (joint : Int)
    (src : ConfigSource) {j : Int} {v : ℚ} {r : Int}
    (h : Ev.call (CtrlCall.setUnits j v) r ∈ innerSeq env resp joint src) :
    j = joint ∧
    v = (if (src.findJointType "TYPE" (jointString joint)).getD JointType.linear
            = JointType.linear
         then src.findLinearUnits "UNITS" (jointString joint)
         else src.findAngularUnits "UNITS" (jointString joint)).getD
        (if (src.findJointType "TYPE" (jointString joint)).getD JointType.linear
            = JointType.linear
         then env.trajLinearUnits else env.trajAngularUnits) := by
  unfold innerSeq at h
  cases hfs : src.findString "COMP_FILE" (jointString joint) <;> simp [hfs] at h <;> tauto

theorem unitsLookup_payload (env : Env) (resp : CtrlCall → Int) (joint : Int)
    (src : ConfigSource) {ch : LookupChan} {sec : String} {f : Bool}
    (h : Ev.lookup ch "UNITS" sec f ∈ innerSeq env resp joint src) :
    ch = (if (src.findJointType "TYPE" (jointString joint)).getD JointType.linear
             = JointType.linear
          then LookupChan.linearUnits else LookupChan.angularUnits) := by
  unfold innerSeq at h
  cases hfs : src.findString "COMP_FILE" (jointString joint) <;> simp [hfs] at h <;> tauto

theorem setHomingParams_payload (env : Env) (resp : CtrlCall → Int) (joint : Int)
    (src : ConfigSource) {j : Int} {ho off hv sv lv : ℚ} {ui il ish : Bool}
    {sq vh : Int} {r : Int}
    (h : Ev.call (CtrlCall.setHomingParams j ho off hv sv lv ui il ish sq vh) r ∈
          innerSeq env resp joint src) :
    j = joint ∧
    ho = (src.findFloat "HOME" (jointString joint)).getD 0 ∧
    off = (src.findFloat "HOME_OFFSET" (jointString joint)).getD 0 ∧
    hv = (src.findFloat "HOME_VEL" (jointString joint)).getD (-1) ∧
    sv = (src.findFloat "HOME_SEARCH_VEL" (jointString joint)).getD 0 ∧
    lv = (src.findFloat "HOME_LATCH_VEL" (jointString joint)).getD 0 ∧
    ui = (src.findBool "HOME_USE_INDEX" (jointString joint)).getD false ∧
    il = (src.findBool "HOME_IGNORE_LIMITS" (jointString joint)).getD false ∧
    ish = (src.findBool "HOME_IS_SHARED" (jointString joint)).getD false ∧
    sq = (src.findInt "HOME_SEQUENCE" (jointString joint)).getD (-1) ∧
    vh = (src.findInt "VOLATILE_HOME" (jointString joint)).getD 0 := by
  unfold innerSeq at h
  cases hfs : src.findString "COMP_FILE" (jointString joint) <;> simp [hfs] at h <;> tauto

theorem loadComp_payload (env : Env) (resp : CtrlCall → Int) (joint : Int)
    (src : ConfigSource) {j : Int} {p : String} {ty : Int} {r : Int}
    (h : Ev.call (CtrlCall.loadComp j p ty) r ∈ innerSeq env resp joint src) :
    j = joint ∧ src.findString "COMP_FILE" (jointString joint) = some p ∧
    ty = (src.findInt "COMP_FILE_TYPE" (jointString joint)).getD 0 := by
  unfold innerSeq at h
  cases hfs : src.findString "COMP_FILE" (jointString joint) <;> simp [hfs] at h
  tauto

/-- The labels of the full event sequence form a fixed concrete list
(up to the optional `loadComp`), giving the program-order positions of
every lookup key and controller call. -/
theorem labels_full (env : Env) (resp : CtrlCall → Int) (joint : Int)
    (src : ConfigSource) :
    (innerSeq env resp joint src ++
      [Ev.call (CtrlCall.activate joint) (resp (CtrlCall.activate joint))]).map evLabel =
      [Sum.inl "TYPE", Sum.inr CallKind.kSetJointType, Sum.inl "UNITS",
       Sum.inr CallKind.kSetUnits, Sum.inl "BACKLASH", Sum.inr CallKind.kSetBacklash,
       Sum.inl "MIN_LIMIT", Sum.inr CallKind.kSetMinPositionLimit,
       Sum.inl "MAX_LIMIT", Sum.inr CallKind.kSetMaxPositionLimit,
       Sum.inl "FERROR", Sum.inr CallKind.kSetFerror,
       Sum.inl "MIN_FERROR", Sum.inr CallKind.kSetMinFerror,
       Sum.inl "HOME", Sum.inl "HOME_OFFSET", Sum.inl "HOME_SEARCH_VEL",
       Sum.inl "HOME_LATCH_VEL", Sum.inl "HOME_VEL", Sum.inl "HOME_IS_SHARED",
       Sum.inl "HOME_USE_INDEX", Sum.inl "HOME_IGNORE_LIMITS",
       Sum.inl "HOME_SEQUENCE", Sum.inl "VOLATILE_HOME",
       Sum.inr CallKind.kSetHomingParams,
       Sum.inl "MAX_VELOCITY", Sum.inr CallKind.kSetMaxVelocity,
       Sum.inl "MAX_ACCELERATION", Sum.inr CallKind.kSetMaxAcceleration,
       Sum.inl "COMP_FILE_TYPE", Sum.inl "COMP_FILE"] ++
      ((match src.findString "COMP_FILE" (jointString joint) with
        | some _ => [Sum.inr CallKind.kLoadComp]
        | none => ([] : List (Sum String CallKind))) ++
       [Sum.inr CallKind.kActivate]) := by
  unfold innerSeq
  cases hfs : src.findString "COMP_FILE" (jointString joint) <;>
    simp [hfs, evLabel, kindOf]

/-- If a list splitting as `l₁ ++ x :: t` matches a shape
`A ++ y :: (B ++ x :: C)` in which `x` does not occur before the
marked position, then `y` lies in `l₁`, i.e. strictly before `x`. -/
theorem before_of_split {α : Type} :
    ∀ (A : List α) {l₁ t : List α} {x y : α} (B C : List α),
      l₁ ++ x :: t = A ++ y :: (B ++ x :: C) → x ∉ A → x ≠ y → x ∉ B →
      y ∈ l₁ := by
  intro A
  induction A with
  | nil =>
    intro l₁ t x y B C heq hxA hxy hxB
    cases l₁ with
    | nil =>
      simp only [List.nil_append] at heq
      injection heq with h1 h2
      exact absurd h1 hxy
    | cons a l₁' =>
      simp only [List.cons_append, List.nil_append] at heq
      injection heq with h1 h2
      exact h1 ▸ List.mem_cons_self a l₁'
  | cons a A' ih =>
    intro l₁ t x y B C heq hxA hxy hxB
    cases l₁ with
    | nil =>
      simp only [List.nil_append, List.cons_append] at heq
      injection heq with h1 h2
      exact absurd (by simp [h1]) hxA
    | cons a' l₁' =>
      simp only [List.cons_append] at heq
      injection heq with h1 h2
      have hxA' : x ∉ A' := fun hm => hxA (List.mem_cons_of_mem _ hm)
      exact List.mem_cons_of_mem _ (ih B C h2 hxA' hxy hxB)

theorem evLabel_inl {e : Ev} {k : String} (h : evLabel e = Sum.inl k) :
    ∃ ch sec f, e = Ev.lookup ch k sec f := by
  cases e with
  | lookup ch key sec f =>
    simp [evLabel] at h
    exact ⟨ch, sec, f, by rw [h]⟩
  | call c r => simp [evLabel] at h

theorem evLabel_inr {e : Ev} {kk : CallKind} (h : evLabel e = Sum.inr kk) :
    ∃ c r, e = Ev.call c r ∧ kindOf c = kk := by
  cases e with
  | lookup ch k sec f => simp [evLabel] at h
  | call c r => exact ⟨c, r, rfl, by simpa [evLabel] using h⟩

theorem kindOf_setFerror {c : CtrlCall} (h : kindOf c = CallKind.kSetFerror) :
    ∃ j v, c = CtrlCall.setFerror j v := by
  cases c <;> simp [kindOf] at h ⊢

theorem innerKinds_concat_sublist (o : Option String) :
    (innerKinds o ++ [CallKind.kActivate]).Sublist canonicalOrder := by
  cases o <;> simp [innerKinds, canonicalOrder]

theorem innerKinds_sublist (o : Option String) :
    (innerKinds o).Sublist canonicalOrder := by
  cases o <;> simp [innerKinds, canonicalOrder]

/-- C1: in every load, the controller-call kinds of the trace follow
the fixed order `setJointType, setUnits, setBacklash,
setMinPositionLimit, setMaxPositionLimit, setFerror, setMinFerror,
setHomingParams, setMaxVelocity, setMaxAcceleration, loadComp,
activate` (each at most once, `loadComp` only when a `COMP_FILE` path
is present); the load succeeds iff the trace ends with the activate
call, activate is never invoked in a failed run, and in a successful
run every lookup and every controller call before activate succeeded. -/
theorem claim_C1 (env : Env) (resp : CtrlCall → Int) (joint : Int)
    (src : ConfigSource) :
    (callKinds (loadJoint env resp joint src).2).Sublist canonicalOrder ∧
    ((loadJoint env resp joint src).1 = 0 ↔
      ∃ tr' r, (loadJoint env resp joint src).2 =
        tr' ++ [Ev.call (CtrlCall.activate joint) r]) ∧
    (∀ r, Ev.call (CtrlCall.activate joint) r ∈ (loadJoint env resp joint src).2 →
      (loadJoint env resp joint src).1 = 0) ∧
    ((loadJoint env resp joint src).1 = 0 →
      ∀ e ∈ (loadJoint env resp joint src).2.dropLast, evGood e = true) ∧
    (∀ p ty r,
      Ev.call (CtrlCall.loadComp joint p ty) r ∈ (loadJoint env resp joint src).2 →
      src.findString "COMP_FILE" (jointString joint) = some p) := by
  rcases loadJoint_trace_cases env resp joint src with
    ⟨h0, htr, hgood⟩ | ⟨hm1, pre, b, t, hsplit, hpre, hbad, htr⟩
  · refine ⟨?_, ⟨fun _ => ⟨innerSeq env resp joint src, resp (CtrlCall.activate joint), htr⟩,
      fun _ => h0⟩, fun r _ => h0, ?_, ?_⟩
    · rw [htr, callKinds_append, innerSeq_calls]
      have hact : callKinds
          [Ev.call (CtrlCall.activate joint) (resp (CtrlCall.activate joint))] =
          [CallKind.kActivate] := rfl
      rw [hact]
      exact innerKinds_concat_sublist _
    · intro _ e he
      rw [htr, List.dropLast_concat] at he
      exact hgood e he
    · intro p ty r hmem
      rw [htr] at hmem
      rcases List.mem_append.mp hmem with hin | hin
      · exact (loadComp_payload env resp joint src hin).2.1
      · simp at hin
  · have htr_sub : (loadJoint env resp joint src).2.Sublist
        (innerSeq env resp joint src) := by
      rw [htr, hsplit]
      exact List.Sublist.append_left (List.Sublist.cons₂ b (List.nil_sublist t)) pre
    have hmem_inner : ∀ {e : Ev}, e ∈ (loadJoint env resp joint src).2 →
        e ∈ innerSeq env resp joint src := fun he => htr_sub.subset he
    refine ⟨?_, ⟨?_, ?_⟩, ?_, ?_, ?_⟩
    · have h1 : (callKinds (loadJoint env resp joint src).2).Sublist
          (callKinds (innerSeq env resp joint src)) := by
        exact List.Sublist.filterMap _ htr_sub
      refine h1.trans ?_
      rw [innerSeq_calls]
      exact (innerKinds_sublist _).trans (List.Sublist.refl _)
    · intro h0
      rw [h0] at hm1
      exact absurd hm1 (by decide)
    · rintro ⟨tr', r, heq⟩
      have hlast : Ev.call (CtrlCall.activate joint) r ∈
          (loadJoint env resp joint src).2 := by
        rw [heq]; simp
      exact absurd (hmem_inner hlast) (activate_not_mem_innerSeq env resp joint src)
    · intro r hmem
      exact absurd (hmem_inner hmem) (activate_not_mem_innerSeq env resp joint src)
    · intro h0
      rw [h0] at hm1
      exact absurd hm1 (by decide)
    · intro p ty r hmem
      exact (loadComp_payload env resp joint src (hmem_inner hmem)).2.1

theorem claim_C1_witness :
    ∃ tr' r, (loadJoint env0 (fun _ => 0) 0 emptySource).2 =
      tr' ++ [Ev.call (CtrlCall.activate 0) r] :=
  (claim_C1 env0 (fun _ => 0) 0 emptySource).2.1.mp
    (by rw [loadJoint_emptySource env0 0 (fun _ => 0) (fun _ _ => rfl)])

/-- C2: a load of any joint from a source with no per-unit keys, under
a controller that accepts every call, resolves every field to its
documented default, issues exactly the default setter calls (with no
`loadComp`), and ends with activation. -/
theorem claim_C2 (env : Env) (joint : Int) (resp : CtrlCall → Int)
    (h : ∀ c, resp c = 0) :
    loadJoint env resp joint emptySource =
      (0, defaultEvents env joint ++ [Ev.call (CtrlCall.activate joint) 0]) := by
  have heq := loadJoint_emptySource env joint resp (fun c _ => h c)
  rw [heq, h]

theorem claim_C2_witness :
    loadJoint env0 (fun _ => 0) 0 emptySource =
      (0, defaultEvents env0 0 ++ [Ev.call (CtrlCall.activate 0) 0]) :=
  claim_C2 env0 0 (fun _ => 0) (fun _ => rfl)

/-- C10: the result of the final activate call is ignored — a load in
which every setter succeeds returns 0 even when the controller rejects
activation, and the trace records the rejected activate call last;
unlike every other controller call, whose non-zero result forces the
failure result −1. -/
theorem claim_C10 :
    (∀ (env : Env) (joint : Int) (resp : CtrlCall → Int),
      (∀ c, kindOf c ≠ CallKind.kActivate → resp c = 0) →
      (loadJoint env resp joint emptySource).1 = 0 ∧
      (loadJoint env resp joint emptySource).2.getLast? =
        some (Ev.call (CtrlCall.activate joint) (resp (CtrlCall.activate joint))))
    ∧ (∀ (env : Env) (resp : CtrlCall → Int) (joint : Int) (src : ConfigSource)
        (c : CtrlCall) (r : Int),
        Ev.call c r ∈ (loadJoint env resp joint src).2 →
        kindOf c ≠ CallKind.kActivate → r ≠ 0 →
        (loadJoint env resp joint src).1 = -1) := by
  constructor
  · intro env joint resp h
    rw [loadJoint_emptySource env joint resp h]
    exact ⟨rfl, by simp⟩
  · intro env resp joint src c r hmem hkind hr
    rcases loadJoint_trace_cases env resp joint src with
      ⟨h0, htr, hgood⟩ | ⟨hm1, -⟩
    · exfalso
      rw [htr] at hmem
      rcases List.mem_append.mp hmem with hin | hin
      · have hg := hgood _ hin
        simp [evGood] at hg
        exact hr hg
      · simp at hin
        exact hkind (by rw [hin.1]; rfl)
    · exact hm1

theorem claim_C10_witness :
    (loadJoint env0 (fun c => if c = CtrlCall.activate 0 then -1 else 0)
      0 emptySource).1 = 0 :=
  (claim_C10.1 env0 0 (fun c => if c = CtrlCall.activate 0 then -1 else 0)
    (fun c hc => if_neg (fun he => hc (by rw [he]; rfl)))).1

/-- C8: `iniGetFloatPrec` yields the fixed minimum 3 for a literal
without a decimal point (including the empty string) and otherwise
`max 3 n` where `n` is the run of decimal digits immediately after the
first point, stopping at the first non-digit or the end; in particular
the spec's four examples hold. -/
theorem claim_C8 :
    (∀ s : String,
      iniGetFloatPrec s =
        if '.' ∈ s.data then
          max 3 (((s.data.dropWhile fun c => c != '.').tail).takeWhile
            Char.isDigit).length
        else 3) ∧
    iniGetFloatPrec "1.2345" = 4 ∧
    iniGetFloatPrec "7" = 3 ∧
    iniGetFloatPrec "0.12" = 3 ∧
    iniGetFloatPrec "" = 3 := by
  refine ⟨fun s => iniGetFloatPrec_eq_specPrec s, ?_, ?_, ?_, ?_⟩ <;> rfl

/-- C9: `iniFormatFloat` builds exactly `"<var> = %.<p>f\n"` and
`iniFormatFloat2` exactly `"<var> = %.<p>f %.<p>f\n"`, with the single
precision `p` inferred from the digits after the first decimal point
of the value literal only (the second number of a pair is never
inspected). -/
theorem claim_C9 :
    (∀ var val, iniFormatFloat var val =
      var ++ " = %." ++ toString (specPrec val) ++ "f\n") ∧
    (∀ var val, iniFormatFloat2 var val =
      var ++ " = %." ++ toString (specPrec val) ++ "f %." ++
        toString (specPrec val) ++ "f\n") ∧
    iniFormatFloat "FOO" "1.2345" = "FOO = %.4f\n" ∧
    iniFormatFloat2 "BAR" "1.23 9.1" = "BAR = %.3f %.3f\n" := by
  refine ⟨?_, ?_, by rfl, by rfl⟩
  · intro var val
    unfold iniFormatFloat
    rw [iniGetFloatPrec_eq_specPrec]
  · intro var val
    unfold iniFormatFloat2
    rw [iniGetFloatPrec_eq_specPrec]

/-- C4: `iniJoint` fails with `-1` and does nothing when the document
cannot be opened; fails when the mandatory `[TRAJ] AXES` count is
absent or malformed, with no controller call; fails with a range error
— no setter called and no per-unit lookup performed — when the joint
index is outside `[0, AXES)`; and otherwise delegates to `loadJoint`
and returns its result. -/
theorem claim_C4 (env : Env) (resp : CtrlCall → Int)
    (fs : String → Option ConfigSource) (joint : Int) (filename : String) :
    (fs filename = none → iniJoint env resp fs joint filename = (-1, [])) ∧
    (∀ src, fs filename = some src →
      (src.findInt "AXES" "TRAJ" = FindResult.absent ∨
       src.findInt "AXES" "TRAJ" = FindResult.convErr) →
      (iniJoint env resp fs joint filename).1 = -1 ∧
      callKinds (iniJoint env resp fs joint filename).2 = []) ∧
    (∀ src axes, fs filename = some src →
      src.findInt "AXES" "TRAJ" = FindResult.ok axes →
      (joint < 0 ∨ joint ≥ axes) →
      iniJoint env resp fs joint filename =
        (-1, [Ev.lookup LookupChan.int "AXES" "TRAJ" false])) ∧
    (∀ src axes, fs filename = some src →
      src.findInt "AXES" "TRAJ" = FindResult.ok axes →
      ¬(joint < 0 ∨ joint ≥ axes) →
      iniJoint env resp fs joint filename =
        ((loadJoint env resp joint src).1,
         Ev.lookup LookupChan.int "AXES" "TRAJ" false ::
           (loadJoint env resp joint src).2)) := by
  refine ⟨?_, ?_, ?_, ?_⟩
  · intro h
    simp [iniJoint, h]
  · intro src hfs hax
    rcases hax with hax | hax <;> simp [iniJoint, hfs, hax, callKinds]
  · intro src axes hfs hax hrange
    simp [iniJoint, hfs, hax, hrange]
  · intro src axes hfs hax hrange
    rcases loadJoint_trace_cases env resp joint src with ⟨h0, -, -⟩ | ⟨hm1, -⟩
    · simp [iniJoint, hfs, hax, hrange, h0]
    · simp [iniJoint, hfs, hax, hrange, hm1]

theorem claim_C4_witness :
    iniJoint env0 (fun _ => 0) fs0 5 "machine.ini" =
      (-1, [Ev.lookup LookupChan.int "AXES" "TRAJ" false]) :=
  (claim_C4 env0 (fun _ => 0) fs0 5 "machine.ini").2.2.1 srcAxes3 3
    (by rfl) (by rfl) (by decide)

/-- C3: a conversion error on any present-but-malformed per-unit value
aborts the load — the failure result is returned, the offending lookup
is the final event (no later lookup or setter is attempted), and
activation never occurs; conversely a run whose every event is good
(keys merely absent, all setters accepted) succeeds, so absence alone
is never a failure. -/
theorem claim_C3 (env : Env) (resp : CtrlCall → Int) (joint : Int)
    (src : ConfigSource) :
    ((∃ ch k sec, Ev.lookup ch k sec true ∈ (loadJoint env resp joint src).2) →
      (loadJoint env resp joint src).1 = -1 ∧
      (∀ e ∈ (loadJoint env resp joint src).2.dropLast,
        ∀ ch k sec, e ≠ Ev.lookup ch k sec true) ∧
      (∀ r, Ev.call (CtrlCall.activate joint) r ∉ (loadJoint env resp joint src).2)) ∧
    ((∀ e ∈ (loadJoint env resp joint src).2, evGood e = true) →
      (loadJoint env resp joint src).1 = 0) := by
  rcases loadJoint_trace_cases env resp joint src with
    ⟨h0, htr, hgood⟩ | ⟨hm1, pre, b, t, hsplit, hpre, hbad, htr⟩
  · constructor
    · rintro ⟨ch, k, sec, hmem⟩
      exfalso
      rw [htr] at hmem
      rcases List.mem_append.mp hmem with hin | hin
      · have hg := hgood _ hin
        simp [evGood] at hg
      · simp at hin
    · intro _
      exact h0
  · have hmem_inner : ∀ {e : Ev}, e ∈ (loadJoint env resp joint src).2 →
        e ∈ innerSeq env resp joint src := by
      intro e he
      rw [htr] at he
      rw [hsplit]
      rcases List.mem_append.mp he with hin | hin
      · exact List.mem_append_left _ hin
      · simp at hin
        simp [hin]
    constructor
    · intro _
      refine ⟨hm1, ?_, ?_⟩
      · intro e he ch k sec heq
        rw [htr, List.dropLast_concat] at he
        have hg := hpre e he
        rw [heq] at hg
        simp [evGood] at hg
      · intro r hmem
        exact absurd (hmem_inner hmem) (activate_not_mem_innerSeq env resp joint src)
    · intro hall
      exfalso
      have hb : b ∈ (loadJoint env resp joint src).2 := by
        rw [htr]
        simp
      have := hall b hb
      rw [hbad] at this
      exact absurd this (by decide)

theorem claim_C3_witness :
    (loadJoint env0 (fun _ => 0) 0 srcBadBacklash).1 = -1 ∧
    (∀ r, Ev.call (CtrlCall.activate 0) r ∉
      (loadJoint env0 (fun _ => 0) 0 srcBadBacklash).2) := by
  have h := (claim_C3 env0 (fun _ => 0) 0 srcBadBacklash).1
    ⟨LookupChan.float, "BACKLASH", jointString 0, by decide⟩
  exact ⟨h.1, h.2.2⟩

/-- C6: the default for `units` and the lookup channel both follow the
joint type resolved immediately before: when the resolved type is
LINEAR the `UNITS` lookup is linear-units-aware and the value applied
defaults to the trajectory linear-units value; when ANGULAR, the
angular-units channel and default are used. -/
theorem claim_C6 (env : Env) (resp : CtrlCall → Int) (joint : Int)
    (src : ConfigSource) :
    ((src.findJointType "TYPE" (jointString joint)).getD JointType.linear =
        JointType.linear →
      (∀ v r, Ev.call (CtrlCall.setUnits joint v) r ∈
          (loadJoint env resp joint src).2 →
        v = (src.findLinearUnits "UNITS" (jointString joint)).getD
              env.trajLinearUnits) ∧
      (∀ ch sec f, Ev.lookup ch "UNITS" sec f ∈ (loadJoint env resp joint src).2 →
        ch = LookupChan.linearUnits)) ∧
    ((src.findJointType "TYPE" (jointString joint)).getD JointType.linear =
        JointType.angular →
      (∀ v r, Ev.call (CtrlCall.setUnits joint v) r ∈
          (loadJoint env resp joint src).2 →
        v = (src.findAngularUnits "UNITS" (jointString joint)).getD
              env.trajAngularUnits) ∧
      (∀ ch sec f, Ev.lookup ch "UNITS" sec f ∈ (loadJoint env resp joint src).2 →
        ch = LookupChan.angularUnits)) := by
  have hmem_inner : ∀ {e : Ev}, e ∈ (loadJoint env resp joint src).2 →
      e = Ev.call (CtrlCall.activate joint) (resp (CtrlCall.activate joint)) ∨
      e ∈ innerSeq env resp joint src := by
    intro e he
    obtain ⟨t, ht⟩ := loadJoint_trace_extends env resp joint src
    have : e ∈ innerSeq env resp joint src ++
        [Ev.call (CtrlCall.activate joint) (resp (CtrlCall.activate joint))] := by
      rw [← ht]
      exact List.mem_append_left _ he
    rcases List.mem_append.mp this with hin | hin
    · exact Or.inr hin
    · simp at hin
      exact Or.inl hin
  constructor
  · intro hjt
    constructor
    · intro v r hmem
      rcases hmem_inner hmem with heq | hin
      · simp at heq
      · have := (setUnits_payload env resp joint src hin).2
        rw [hjt] at this
        simpa using this
    · intro ch sec f hmem
      rcases hmem_inner hmem with heq | hin
      · simp at heq
      · have := unitsLookup_payload env resp joint src hin
        rw [hjt] at this
        simpa using this
  · intro hjt
    constructor
    · intro v r hmem
      rcases hmem_inner hmem with heq | hin
      · simp at heq
      · have := (setUnits_payload env resp joint src hin).2
        rw [hjt] at this
        simpa using this
    · intro ch sec f hmem
      rcases hmem_inner hmem with heq | hin
      · simp at heq
      · have := unitsLookup_payload env resp joint src hin
        rw [hjt] at this
        simpa using this

theorem claim_C6_witness :
    (∀ v r, Ev.call (CtrlCall.setUnits 0 v) r ∈
        (loadJoint env0 (fun _ => 0) 0 emptySource).2 →
      v = (emptySource.findLinearUnits "UNITS" (jointString 0)).getD
            env0.trajLinearUnits) ∧
    (∀ ch sec f, Ev.lookup ch "UNITS" sec f ∈
        (loadJoint env0 (fun _ => 0) 0 emptySource).2 →
      ch = LookupChan.linearUnits) :=
  (claim_C6 env0 (fun _ => 0) 0 emptySource).1 (by rfl)

/-- From a trace split at event `x` and a matching decomposition of
the full label sequence, produce an event labelled `y` strictly before
`x` in the trace. -/
theorem label_before (env : Env) (resp : CtrlCall → Int) (joint : Int)
    (src : ConfigSource) {x : Ev} {P Q : List Ev}
    (htr : (loadJoint env resp joint src).2 = P ++ x :: Q)
    (A B C : List (Sum String CallKind)) (y : Sum String CallKind)
    (hshape : (innerSeq env resp joint src ++
        [Ev.call (CtrlCall.activate joint) (resp (CtrlCall.activate joint))]).map
          evLabel = A ++ y :: (B ++ evLabel x :: C))
    (hxA : evLabel x ∉ A) (hxy : evLabel x ≠ y) (hxB : evLabel x ∉ B) :
    ∃ e ∈ P, evLabel e = y := by
  obtain ⟨t, ht⟩ := loadJoint_trace_extends env resp joint src
  rw [htr] at ht
  have ht' : P ++ x :: (Q ++ t) =
      innerSeq env resp joint src ++
        [Ev.call (CtrlCall.activate joint) (resp (CtrlCall.activate joint))] := by
    simpa [List.append_assoc] using ht
  have hmap := congrArg (List.map evLabel) ht'
  rw [List.map_append, List.map_cons, hshape] at hmap
  have hy := before_of_split A B C hmap hxA hxy hxB
  obtain ⟨e, heP, he⟩ := List.mem_map.mp hy
  exact ⟨e, heP, he⟩

/-- C5: whenever the min-following-error setter is invoked, the value
it receives is the resolved `MIN_FERROR` value with the resolved
`FERROR` value (default 1) as its fallback: a present valid
`MIN_FERROR` passes its own value, and an absent `MIN_FERROR` passes
exactly the value previously passed to the max-following-error setter
(which then occurs earlier in the trace with the same value). -/
theorem claim_C5 (env : Env) (resp : CtrlCall → Int) (joint : Int)
    (src : ConfigSource) {v : ℚ} {r : Int}
    (hmem : Ev.call (CtrlCall.setMinFerror joint v) r ∈
      (loadJoint env resp joint src).2) :
    v = (src.findFloat "MIN_FERROR" (jointString joint)).getD
          ((src.findFloat "FERROR" (jointString joint)).getD 1) ∧
    (∀ m, src.findFloat "MIN_FERROR" (jointString joint) = FindResult.ok m →
      v = m) ∧
    (src.findFloat "MIN_FERROR" (jointString joint) = FindResult.absent →
      ∃ P Q r', (loadJoint env resp joint src).2 =
          P ++ Ev.call (CtrlCall.setMinFerror joint v) r :: Q ∧
        Ev.call (CtrlCall.setFerror joint v) r' ∈ P) := by
  have hval : v = (src.findFloat "MIN_FERROR" (jointString joint)).getD
      ((src.findFloat "FERROR" (jointString joint)).getD 1) := by
    obtain ⟨t, ht⟩ := loadJoint_trace_extends env resp joint src
    have hfull : Ev.call (CtrlCall.setMinFerror joint v) r ∈
        innerSeq env resp joint src ++
          [Ev.call (CtrlCall.activate joint) (resp (CtrlCall.activate joint))] := by
      rw [← ht]
      exact List.mem_append_left _ hmem
    rcases List.mem_append.mp hfull with hin | hin
    · exact (setMinFerror_payload env resp joint src hin).2
    · simp at hin
  refine ⟨hval, ?_, ?_⟩
  · intro m hm
    rw [hval, hm]
    rfl
  · intro habs
    obtain ⟨P, Q, htr⟩ := List.append_of_mem hmem
    have hshape : (innerSeq env resp joint src ++
        [Ev.call (CtrlCall.activate joint) (resp (CtrlCall.activate joint))]).map
          evLabel =
        [Sum.inl "TYPE", Sum.inr CallKind.kSetJointType, Sum.inl "UNITS",
         Sum.inr CallKind.kSetUnits, Sum.inl "BACKLASH",
         Sum.inr CallKind.kSetBacklash, Sum.inl "MIN_LIMIT",
         Sum.inr CallKind.kSetMinPositionLimit, Sum.inl "MAX_LIMIT",
         Sum.inr CallKind.kSetMaxPositionLimit, Sum.inl "FERROR"] ++
        Sum.inr CallKind.kSetFerror ::
          ([Sum.inl "MIN_FERROR"] ++
           evLabel (Ev.call (CtrlCall.setMinFerror joint v) r) ::
            ([Sum.inl "HOME", Sum.inl "HOME_OFFSET", Sum.inl "HOME_SEARCH_VEL",
              Sum.inl "HOME_LATCH_VEL", Sum.inl "HOME_VEL",
              Sum.inl "HOME_IS_SHARED", Sum.inl "HOME_USE_INDEX",
              Sum.inl "HOME_IGNORE_LIMITS", Sum.inl "HOME_SEQUENCE",
              Sum.inl "VOLATILE_HOME", Sum.inr CallKind.kSetHomingParams,
              Sum.inl "MAX_VELOCITY", Sum.inr CallKind.kSetMaxVelocity,
              Sum.inl "MAX_ACCELERATION", Sum.inr CallKind.kSetMaxAcceleration,
              Sum.inl "COMP_FILE_TYPE", Sum.inl "COMP_FILE"] ++
             ((match src.findString "COMP_FILE" (jointString joint) with
               | some _ => [Sum.inr CallKind.kLoadComp]
               | none => ([] : List (Sum String CallKind))) ++
              [Sum.inr CallKind.kActivate]))) := by
      rw [labels_full env resp joint src]
      rfl
    obtain ⟨e, heP, hey⟩ := label_before env resp joint src htr _ _ _ _ hshape
      (by simp [evLabel, kindOf]) (by simp [evLabel, kindOf]) (by simp [evLabel, kindOf])
    obtain ⟨c, r', hkc, hce⟩ := evLabel_inr hey
    obtain ⟨j, v', hcf⟩ := kindOf_setFerror hce
    subst hcf
    subst hkc
    have heTr : Ev.call (CtrlCall.setFerror j v') r' ∈
        (loadJoint env resp joint src).2 := by
      rw [htr]
      exact List.mem_append_left _ heP
    obtain ⟨t2, ht2⟩ := loadJoint_trace_extends env resp joint src
    have hfull2 : Ev.call (CtrlCall.setFerror j v') r' ∈
        innerSeq env resp joint src ++
          [Ev.call (CtrlCall.activate joint) (resp (CtrlCall.activate joint))] := by
      rw [← ht2]
      exact List.mem_append_left _ heTr
    rcases List.mem_append.mp hfull2 with hin | hin
    · obtain ⟨hj, hv'⟩ := setFerror_payload env resp joint src hin
      subst hj
      rw [habs] at hval
      simp [FindResult.getD] at hval
      refine ⟨P, Q, r', htr, ?_⟩
      rw [show v = v' from hval.trans hv'.symm]
      exact heP
    · simp at hin

theorem claim_C5_witness :
    (1 : ℚ) = (emptySource.findFloat "MIN_FERROR" (jointString 0)).getD
          ((emptySource.findFloat "FERROR" (jointString 0)).getD 1) ∧
    (∀ m, emptySource.findFloat "MIN_FERROR" (jointString 0) = FindResult.ok m →
      (1 : ℚ) = m) ∧
    (emptySource.findFloat "MIN_FERROR" (jointString 0) = FindResult.absent →
      ∃ P Q r', (loadJoint env0 (fun _ => 0) 0 emptySource).2 =
          P ++ Ev.call (CtrlCall.setMinFerror 0 1) 0 :: Q ∧
        Ev.call (CtrlCall.setFerror 0 1) r' ∈ P) :=
  claim_C5 env0 (fun _ => 0) 0 emptySource
    (by rw [loadJoint_emptySource env0 0 (fun _ => 0) (fun _ _ => rfl)]
        simp [defaultEvents])

theorem loadJoint_calls_sublist (env : Env) (resp : CtrlCall → Int) (joint : Int)
    (src : ConfigSource) :
    (callKinds (loadJoint env resp joint src).2).Sublist canonicalOrder := by
  rcases loadJoint_trace_cases env resp joint src with
    ⟨-, htr, -⟩ | ⟨-, pre, b, t, hsplit, -, -, htr⟩
  · rw [htr, callKinds_append, innerSeq_calls]
    have hact : callKinds
        [Ev.call (CtrlCall.activate joint) (resp (CtrlCall.activate joint))] =
        [CallKind.kActivate] := rfl
    rw [hact]
    exact innerKinds_concat_sublist _
  · have htr_sub : (loadJoint env resp joint src).2.Sublist
        (innerSeq env resp joint src) := by
      rw [htr, hsplit]
      exact List.Sublist.append_left (List.Sublist.cons₂ b (List.nil_sublist t)) pre
    have h1 : (callKinds (loadJoint env resp joint src).2).Sublist
        (callKinds (innerSeq env resp joint src)) :=
      List.Sublist.filterMap _ htr_sub
    refine h1.trans ?_
    rw [innerSeq_calls]
    exact innerKinds_sublist _

/-- C7: the homing parameters are applied in exactly one combined
`setHomingParams` call (never more than one per load), the call carries
each of the ten sub-parameters at its independently resolved value
(its own key, its own default), and a lookup of every one of the ten
homing keys occurs strictly before the combined call in the trace. -/
theorem claim_C7 (env : Env) (resp : CtrlCall → Int) (joint : Int)
    (src : ConfigSource) {ho off hv sv lv : ℚ} {ui il ish : Bool}
    {sq vh : Int} {r : Int}
    (hmem : Ev.call (CtrlCall.setHomingParams joint ho off hv sv lv ui il ish sq vh)
      r ∈ (loadJoint env resp joint src).2) :
    (ho = (src.findFloat "HOME" (jointString joint)).getD 0 ∧
     off = (src.findFloat "HOME_OFFSET" (jointString joint)).getD 0 ∧
     hv = (src.findFloat "HOME_VEL" (jointString joint)).getD (-1) ∧
     sv = (src.findFloat "HOME_SEARCH_VEL" (jointString joint)).getD 0 ∧
     lv = (src.findFloat "HOME_LATCH_VEL" (jointString joint)).getD 0 ∧
     ui = (src.findBool "HOME_USE_INDEX" (jointString joint)).getD false ∧
     il = (src.findBool "HOME_IGNORE_LIMITS" (jointString joint)).getD false ∧
     ish = (src.findBool "HOME_IS_SHARED" (jointString joint)).getD false ∧
     sq = (src.findInt "HOME_SEQUENCE" (jointString joint)).getD (-1) ∧
     vh = (src.findInt "VOLATILE_HOME" (jointString joint)).getD 0) ∧
    (callKinds (loadJoint env resp joint src).2).count
      CallKind.kSetHomingParams ≤ 1 ∧
    (∃ P Q, (loadJoint env resp joint src).2 =
        P ++ Ev.call (CtrlCall.setHomingParams joint ho off hv sv lv ui il ish sq vh)
          r :: Q ∧
      ∀ k ∈ ["HOME", "HOME_OFFSET", "HOME_SEARCH_VEL", "HOME_LATCH_VEL",
             "HOME_VEL", "HOME_IS_SHARED", "HOME_USE_INDEX",
             "HOME_IGNORE_LIMITS", "HOME_SEQUENCE", "VOLATILE_HOME"],
        ∃ ch sec f, Ev.lookup ch k sec f ∈ P) := by
  refine ⟨?_, ?_, ?_⟩
  · obtain ⟨t, ht⟩ := loadJoint_trace_extends env resp joint src
    have hfull : Ev.call (CtrlCall.setHomingParams joint ho off hv sv lv ui il ish sq vh)
        r ∈ innerSeq env resp joint src ++
          [Ev.call (CtrlCall.activate joint) (resp (CtrlCall.activate joint))] := by
      rw [← ht]
      exact List.mem_append_left _ hmem
    rcases List.mem_append.mp hfull with hin | hin
    · exact (setHomingParams_payload env resp joint src hin).2
    · simp at hin
  · refine le_trans ?_ (by decide :
      canonicalOrder.count CallKind.kSetHomingParams ≤ 1)
    exact List.Sublist.count_le (loadJoint_calls_sublist env resp joint src) _
  · obtain ⟨P, Q, htr⟩ := List.append_of_mem hmem
    have hsh0 : (innerSeq env resp joint src ++
        [Ev.call (CtrlCall.activate joint) (resp (CtrlCall.activate joint))]).map
          evLabel =
        [Sum.inl "TYPE", Sum.inr CallKind.kSetJointType, Sum.inl "UNITS", Sum.inr CallKind.kSetUnits, Sum.inl "BACKLASH", Sum.inr CallKind.kSetBacklash, Sum.inl "MIN_LIMIT", Sum.inr CallKind.kSetMinPositionLimit, Sum.inl "MAX_LIMIT", Sum.inr CallKind.kSetMaxPositionLimit, Sum.inl "FERROR", Sum.inr CallKind.kSetFerror, Sum.inl "MIN_FERROR", Sum.inr CallKind.kSetMinFerror] ++
        Sum.inl "HOME" ::
          ([Sum.inl "HOME_OFFSET", Sum.inl "HOME_SEARCH_VEL", Sum.inl "HOME_LATCH_VEL", Sum.inl "HOME_VEL", Sum.inl "HOME_IS_SHARED", Sum.inl "HOME_USE_INDEX", Sum.inl "HOME_IGNORE_LIMITS", Sum.inl "HOME_SEQUENCE", Sum.inl "VOLATILE_HOME"] ++
           evLabel (Ev.call (CtrlCall.setHomingParams joint ho off hv sv lv ui il ish sq vh) r) ::
            ([Sum.inl "MAX_VELOCITY", Sum.inr CallKind.kSetMaxVelocity, Sum.inl "MAX_ACCELERATION", Sum.inr CallKind.kSetMaxAcceleration, Sum.inl "COMP_FILE_TYPE", Sum.inl "COMP_FILE"] ++
             ((match src.findString "COMP_FILE" (jointString joint) with
               | some _ => [Sum.inr CallKind.kLoadComp]
               | none => ([] : List (Sum String CallKind))) ++
              [Sum.inr CallKind.kActivate]))) := by
      rw [labels_full env resp joint src]
      rfl
    have hb0 := label_before env resp joint src htr _ _ _ _ hsh0
      (by simp [evLabel, kindOf]) (by simp [evLabel, kindOf]) (by simp [evLabel, kindOf])
    have hsh1 : (innerSeq env resp joint src ++
        [Ev.call (CtrlCall.activate joint) (resp (CtrlCall.activate joint))]).map
          evLabel =
        [Sum.inl "TYPE", Sum.inr CallKind.kSetJointType, Sum.inl "UNITS", Sum.inr CallKind.kSetUnits, Sum.inl "BACKLASH", Sum.inr CallKind.kSetBacklash, Sum.inl "MIN_LIMIT", Sum.inr CallKind.kSetMinPositionLimit, Sum.inl "MAX_LIMIT", Sum.inr CallKind.kSetMaxPositionLimit, Sum.inl "FERROR", Sum.inr CallKind.kSetFerror, Sum.inl "MIN_FERROR", Sum.inr CallKind.kSetMinFerror, Sum.inl "HOME"] ++
        Sum.inl "HOME_OFFSET" ::
          ([Sum.inl "HOME_SEARCH_VEL", Sum.inl "HOME_LATCH_VEL", Sum.inl "HOME_VEL", Sum.inl "HOME_IS_SHARED", Sum.inl "HOME_USE_INDEX", Sum.inl "HOME_IGNORE_LIMITS", Sum.inl "HOME_SEQUENCE", Sum.inl "VOLATILE_HOME"] ++
           evLabel (Ev.call (CtrlCall.setHomingParams joint ho off hv sv lv ui il ish sq vh) r) ::
            ([Sum.inl "MAX_VELOCITY", Sum.inr CallKind.kSetMaxVelocity, Sum.inl "MAX_ACCELERATION", Sum.inr CallKind.kSetMaxAcceleration, Sum.inl "COMP_FILE_TYPE", Sum.inl "COMP_FILE"] ++
             ((match src.findString "COMP_FILE" (jointString joint) with
               | some _ => [Sum.inr CallKind.kLoadComp]
               | none => ([] : List (Sum String CallKind))) ++
              [Sum.inr CallKind.kActivate]))) := by
      rw [labels_full env resp joint src]
      rfl
    have hb1 := label_before env resp joint src htr _ _ _ _ hsh1
      (by simp [evLabel, kindOf]) (by simp [evLabel, kindOf]) (by simp [evLabel, kindOf])
    have hsh2 : (innerSeq env resp joint src ++
        [Ev.call (CtrlCall.activate joint) (resp (CtrlCall.activate joint))]).map
          evLabel =
        [Sum.inl "TYPE", Sum.inr CallKind.kSetJointType, Sum.inl "UNITS", Sum.inr CallKind.kSetUnits, Sum.inl "BACKLASH", Sum.inr CallKind.kSetBacklash, Sum.inl "MIN_LIMIT", Sum.inr CallKind.kSetMinPositionLimit, Sum.inl "MAX_LIMIT", Sum.inr CallKind.kSetMaxPositionLimit, Sum.inl "FERROR", Sum.inr CallKind.kSetFerror, Sum.inl "MIN_FERROR", Sum.inr CallKind.kSetMinFerror, Sum.inl "HOME", Sum.inl "HOME_OFFSET"] ++
        Sum.inl "HOME_SEARCH_VEL" ::
          ([Sum.inl "HOME_LATCH_VEL", Sum.inl "HOME_VEL", Sum.inl "HOME_IS_SHARED", Sum.inl "HOME_USE_INDEX", Sum.inl "HOME_IGNORE_LIMITS", Sum.inl "HOME_SEQUENCE", Sum.inl "VOLATILE_HOME"] ++
           evLabel (Ev.call (CtrlCall.setHomingParams joint ho off hv sv lv ui il ish sq vh) r) ::
            ([Sum.inl "MAX_VELOCITY", Sum.inr CallKind.kSetMaxVelocity, Sum.inl "MAX_ACCELERATION", Sum.inr CallKind.kSetMaxAcceleration, Sum.inl "COMP_FILE_TYPE", Sum.inl "COMP_FILE"] ++
             ((match src.findString "COMP_FILE" (jointString joint) with
               | some _ => [Sum.inr CallKind.kLoadComp]
               | none => ([] : List (Sum String CallKind))) ++
              [Sum.inr CallKind.kActivate]))) := by
      rw [labels_full env resp joint src]
      rfl
    have hb2 := label_before env resp joint src htr _ _ _ _ hsh2
      (by simp [evLabel, kindOf]) (by simp [evLabel, kindOf]) (by simp [evLabel, kindOf])
    have hsh3 : (innerSeq env resp joint src ++
        [Ev.call (CtrlCall.activate joint) (resp (CtrlCall.activate joint))]).map
          evLabel =
        [Sum.inl "TYPE", Sum.inr CallKind.kSetJointType, Sum.inl "UNITS", Sum.inr CallKind.kSetUnits, Sum.inl "BACKLASH", Sum.inr CallKind.kSetBacklash, Sum.inl "MIN_LIMIT", Sum.inr CallKind.kSetMinPositionLimit, Sum.inl "MAX_LIMIT", Sum.inr CallKind.kSetMaxPositionLimit, Sum.inl "FERROR", Sum.inr CallKind.kSetFerror, Sum.inl "MIN_FERROR", Sum.inr CallKind.kSetMinFerror, Sum.inl "HOME", Sum.inl "HOME_OFFSET", Sum.inl "HOME_SEARCH_VEL"] ++
        Sum.inl "HOME_LATCH_VEL" ::
          ([Sum.inl "HOME_VEL", Sum.inl "HOME_IS_SHARED", Sum.inl "HOME_USE_INDEX", Sum.inl "HOME_IGNORE_LIMITS", Sum.inl "HOME_SEQUENCE", Sum.inl "VOLATILE_HOME"] ++
           evLabel (Ev.call (CtrlCall.setHomingParams joint ho off hv sv lv ui il ish sq vh) r) ::
            ([Sum.inl "MAX_VELOCITY", Sum.inr CallKind.kSetMaxVelocity, Sum.inl "MAX_ACCELERATION", Sum.inr CallKind.kSetMaxAcceleration, Sum.inl "COMP_FILE_TYPE", Sum.inl "COMP_FILE"] ++
             ((match src.findString "COMP_FILE" (jointString joint) with
               | some _ => [Sum.inr CallKind.kLoadComp]
               | none => ([] : List (Sum String CallKind))) ++
              [Sum.inr CallKind.kActivate]))) := by
      rw [labels_full env resp joint src]
      rfl
    have hb3 := label_before env resp joint src htr _ _ _ _ hsh3
      (by simp [evLabel, kindOf]) (by simp [evLabel, kindOf]) (by simp [evLabel, kindOf])
    have hsh4 : (innerSeq env resp joint src ++
        [Ev.call (CtrlCall.activate joint) (resp (CtrlCall.activate joint))]).map
          evLabel =
        [Sum.inl "TYPE", Sum.inr CallKind.kSetJointType, Sum.inl "UNITS", Sum.inr CallKind.kSetUnits, Sum.inl "BACKLASH", Sum.inr CallKind.kSetBacklash, Sum.inl "MIN_LIMIT", Sum.inr CallKind.kSetMinPositionLimit, Sum.inl "MAX_LIMIT", Sum.inr CallKind.kSetMaxPositionLimit, Sum.inl "FERROR", Sum.inr CallKind.kSetFerror, Sum.inl "MIN_FERROR", Sum.inr CallKind.kSetMinFerror, Sum.inl "HOME", Sum.inl "HOME_OFFSET", Sum.inl "HOME_SEARCH_VEL", Sum.inl "HOME_LATCH_VEL"] ++
        Sum.inl "HOME_VEL" ::
          ([Sum.inl "HOME_IS_SHARED", Sum.inl "HOME_USE_INDEX", Sum.inl "HOME_IGNORE_LIMITS", Sum.inl "HOME_SEQUENCE", Sum.inl "VOLATILE_HOME"] ++
           evLabel (Ev.call (CtrlCall.setHomingParams joint ho off hv sv lv ui il ish sq vh) r) ::
            ([Sum.inl "MAX_VELOCITY", Sum.inr CallKind.kSetMaxVelocity, Sum.inl "MAX_ACCELERATION", Sum.inr CallKind.kSetMaxAcceleration, Sum.inl "COMP_FILE_TYPE", Sum.inl "COMP_FILE"] ++
             ((match src.findString "COMP_FILE" (jointString joint) with
               | some _ => [Sum.inr CallKind.kLoadComp]
               | none => ([] : List (Sum String CallKind))) ++
              [Sum.inr CallKind.kActivate]))) := by
      rw [labels_full env resp joint src]
      rfl
    have hb4 := label_before env resp joint src htr _ _ _ _ hsh4
      (by simp [evLabel, kindOf]) (by simp [evLabel, kindOf]) (by simp [evLabel, kindOf])
    have hsh5 : (innerSeq env resp joint src ++
        [Ev.call (CtrlCall.activate joint) (resp (CtrlCall.activate joint))]).map
          evLabel =
        [Sum.inl "TYPE", Sum.inr CallKind.kSetJointType, Sum.inl "UNITS", Sum.inr CallKind.kSetUnits, Sum.inl "BACKLASH", Sum.inr CallKind.kSetBacklash, Sum.inl "MIN_LIMIT", Sum.inr CallKind.kSetMinPositionLimit, Sum.inl "MAX_LIMIT", Sum.inr CallKind.kSetMaxPositionLimit, Sum.inl "FERROR", Sum.inr CallKind.kSetFerror, Sum.inl "MIN_FERROR", Sum.inr CallKind.kSetMinFerror, Sum.inl "HOME", Sum.inl "HOME_OFFSET", Sum.inl "HOME_SEARCH_VEL", Sum.inl "HOME_LATCH_VEL", Sum.inl "HOME_VEL"] ++
        Sum.inl "HOME_IS_SHARED" ::
          ([Sum.inl "HOME_USE_INDEX", Sum.inl "HOME_IGNORE_LIMITS", Sum.inl "HOME_SEQUENCE", Sum.inl "VOLATILE_HOME"] ++
           evLabel (Ev.call (CtrlCall.setHomingParams joint ho off hv sv lv ui il ish sq vh) r) ::
            ([Sum.inl "MAX_VELOCITY", Sum.inr CallKind.kSetMaxVelocity, Sum.inl "MAX_ACCELERATION", Sum.inr CallKind.kSetMaxAcceleration, Sum.inl "COMP_FILE_TYPE", Sum.inl "COMP_FILE"] ++
             ((match src.findString "COMP_FILE" (jointString joint) with
               | some _ => [Sum.inr CallKind.kLoadComp]
               | none => ([] : List (Sum String CallKind))) ++
              [Sum.inr CallKind.kActivate]))) := by
      rw [labels_full env resp joint src]
      rfl
    have hb5 := label_before env resp joint src htr _ _ _ _ hsh5
      (by simp [evLabel, kindOf]) (by simp [evLabel, kindOf]) (by simp [evLabel, kindOf])
    have hsh6 : (innerSeq env resp joint src ++
        [Ev.call (CtrlCall.activate joint) (resp (CtrlCall.activate joint))]).map
          evLabel =
        [Sum.inl "TYPE", Sum.inr CallKind.kSetJointType, Sum.inl "UNITS", Sum.inr CallKind.kSetUnits, Sum.inl "BACKLASH", Sum.inr CallKind.kSetBacklash, Sum.inl "MIN_LIMIT", Sum.inr CallKind.kSetMinPositionLimit, Sum.inl "MAX_LIMIT", Sum.inr CallKind.kSetMaxPositionLimit, Sum.inl "FERROR", Sum.inr CallKind.kSetFerror, Sum.inl "MIN_FERROR", Sum.inr CallKind.kSetMinFerror, Sum.inl "HOME", Sum.inl "HOME_OFFSET", Sum.inl "HOME_SEARCH_VEL", Sum.inl "HOME_LATCH_VEL", Sum.inl "HOME_VEL", Sum.inl "HOME_IS_SHARED"] ++
        Sum.inl "HOME_USE_INDEX" ::
          ([Sum.inl "HOME_IGNORE_LIMITS", Sum.inl "HOME_SEQUENCE", Sum.inl "VOLATILE_HOME"] ++
           evLabel (Ev.call (CtrlCall.setHomingParams joint ho off hv sv lv ui il ish sq vh) r) ::
            ([Sum.inl "MAX_VELOCITY", Sum.inr CallKind.kSetMaxVelocity, Sum.inl "MAX_ACCELERATION", Sum.inr CallKind.kSetMaxAcceleration, Sum.inl "COMP_FILE_TYPE", Sum.inl "COMP_FILE"] ++
             ((match src.findString "COMP_FILE" (jointString joint) with
               | some _ => [Sum.inr CallKind.kLoadComp]
               | none => ([] : List (Sum String CallKind))) ++
              [Sum.inr CallKind.kActivate]))) := by
      rw [labels_full env resp joint src]
      rfl
    have hb6 := label_before env resp joint src htr _ _ _ _ hsh6
      (by simp [evLabel, kindOf]) (by simp [evLabel, kindOf]) (by simp [evLabel, kindOf])
    have hsh7 : (innerSeq env resp joint src ++
        [Ev.call (CtrlCall.activate joint) (resp (CtrlCall.activate joint))]).map
          evLabel =
        [Sum.inl "TYPE", Sum.inr CallKind.kSetJointType, Sum.inl "UNITS", Sum.inr CallKind.kSetUnits, Sum.inl "BACKLASH", Sum.inr CallKind.kSetBacklash, Sum.inl "MIN_LIMIT", Sum.inr CallKind.kSetMinPositionLimit, Sum.inl "MAX_LIMIT", Sum.inr CallKind.kSetMaxPositionLimit, Sum.inl "FERROR", Sum.inr CallKind.kSetFerror, Sum.inl "MIN_FERROR", Sum.inr CallKind.kSetMinFerror, Sum.inl "HOME", Sum.inl "HOME_OFFSET", Sum.inl "HOME_SEARCH_VEL", Sum.inl "HOME_LATCH_VEL", Sum.inl "HOME_VEL", Sum.inl "HOME_IS_SHARED", Sum.inl "HOME_USE_INDEX"] ++
        Sum.inl "HOME_IGNORE_LIMITS" ::
          ([Sum.inl "HOME_SEQUENCE", Sum.inl "VOLATILE_HOME"] ++
           evLabel (Ev.call (CtrlCall.setHomingParams joint ho off hv sv lv ui il ish sq vh) r) ::
            ([Sum.inl "MAX_VELOCITY", Sum.inr CallKind.kSetMaxVelocity, Sum.inl "MAX_ACCELERATION", Sum.inr CallKind.kSetMaxAcceleration, Sum.inl "COMP_FILE_TYPE", Sum.inl "COMP_FILE"] ++
             ((match src.findString "COMP_FILE" (jointString joint) with
               | some _ => [Sum.inr CallKind.kLoadComp]
               | none => ([] : List (Sum String CallKind))) ++
              [Sum.inr CallKind.kActivate]))) := by
      rw [labels_full env resp joint src]
      rfl
    have hb7 := label_before env resp joint src htr _ _ _ _ hsh7
      (by simp [evLabel, kindOf]) (by simp [evLabel, kindOf]) (by simp [evLabel, kindOf])
    have hsh8 : (innerSeq env resp joint src ++
        [Ev.call (CtrlCall.activate joint) (resp (CtrlCall.activate joint))]).map
          evLabel =
        [Sum.inl "TYPE", Sum.inr CallKind.kSetJointType, Sum.inl "UNITS", Sum.inr CallKind.kSetUnits, Sum.inl "BACKLASH", Sum.inr CallKind.kSetBacklash, Sum.inl "MIN_LIMIT", Sum.inr CallKind.kSetMinPositionLimit, Sum.inl "MAX_LIMIT", Sum.inr CallKind.kSetMaxPositionLimit, Sum.inl "FERROR", Sum.inr CallKind.kSetFerror, Sum.inl "MIN_FERROR", Sum.inr CallKind.kSetMinFerror, Sum.inl "HOME", Sum.inl "HOME_OFFSET", Sum.inl "HOME_SEARCH_VEL", Sum.inl "HOME_LATCH_VEL", Sum.inl "HOME_VEL", Sum.inl "HOME_IS_SHARED", Sum.inl "HOME_USE_INDEX", Sum.inl "HOME_IGNORE_LIMITS"] ++
        Sum.inl "HOME_SEQUENCE" ::
          ([Sum.inl "VOLATILE_HOME"] ++
           evLabel (Ev.call (CtrlCall.setHomingParams joint ho off hv sv lv ui il ish sq vh) r) ::
            ([Sum.inl "MAX_VELOCITY", Sum.inr CallKind.kSetMaxVelocity, Sum.inl "MAX_ACCELERATION", Sum.inr CallKind.kSetMaxAcceleration, Sum.inl "COMP_FILE_TYPE", Sum.inl "COMP_FILE"] ++
             ((match src.findString "COMP_FILE" (jointString joint) with
               | some _ => [Sum.inr CallKind.kLoadComp]
               | none => ([] : List (Sum String CallKind))) ++
              [Sum.inr CallKind.kActivate]))) := by
      rw [labels_full env resp joint src]
      rfl
    have hb8 := label_before env resp joint src htr _ _ _ _ hsh8
      (by simp [evLabel, kindOf]) (by simp [evLabel, kindOf]) (by simp [evLabel, kindOf])
    have hsh9 : (innerSeq env resp joint src ++
        [Ev.call (CtrlCall.activate joint) (resp (CtrlCall.activate joint))]).map
          evLabel =
        [Sum.inl "TYPE", Sum.inr CallKind.kSetJointType, Sum.inl "UNITS", Sum.inr CallKind.kSetUnits, Sum.inl "BACKLASH", Sum.inr CallKind.kSetBacklash, Sum.inl "MIN_LIMIT", Sum.inr CallKind.kSetMinPositionLimit, Sum.inl "MAX_LIMIT", Sum.inr CallKind.kSetMaxPositionLimit, Sum.inl "FERROR", Sum.inr CallKind.kSetFerror, Sum.inl "MIN_FERROR", Sum.inr CallKind.kSetMinFerror, Sum.inl "HOME", Sum.inl "HOME_OFFSET", Sum.inl "HOME_SEARCH_VEL", Sum.inl "HOME_LATCH_VEL", Sum.inl "HOME_VEL", Sum.inl "HOME_IS_SHARED", Sum.inl "HOME_USE_INDEX", Sum.inl "HOME_IGNORE_LIMITS", Sum.inl "HOME_SEQUENCE"] ++
        Sum.inl "VOLATILE_HOME" ::
          (([] : List (Sum String CallKind)) ++
           evLabel (Ev.call (CtrlCall.setHomingParams joint ho off hv sv lv ui il ish sq vh) r) ::
            ([Sum.inl "MAX_VELOCITY", Sum.inr CallKind.kSetMaxVelocity, Sum.inl "MAX_ACCELERATION", Sum.inr CallKind.kSetMaxAcceleration, Sum.inl "COMP_FILE_TYPE", Sum.inl "COMP_FILE"] ++
             ((match src.findString "COMP_FILE" (jointString joint) with
               | some _ => [Sum.inr CallKind.kLoadComp]
               | none => ([] : List (Sum String CallKind))) ++
              [Sum.inr CallKind.kActivate]))) := by
      rw [labels_full env resp joint src]
      rfl
    have hb9 := label_before env resp joint src htr _ _ _ _ hsh9
      (by simp [evLabel, kindOf]) (by simp [evLabel, kindOf]) (by simp [evLabel, kindOf])
    refine ⟨P, Q, htr, ?_⟩
    intro k hk
    fin_cases hk
    · obtain ⟨e, heP, hey⟩ := hb0
      obtain ⟨ch, sec, f, he⟩ := evLabel_inl hey
      exact ⟨ch, sec, f, he ▸ heP⟩
    · obtain ⟨e, heP, hey⟩ := hb1
      obtain ⟨ch, sec, f, he⟩ := evLabel_inl hey
      exact ⟨ch, sec, f, he ▸ heP⟩
    · obtain ⟨e, heP, hey⟩ := hb2
      obtain ⟨ch, sec, f, he⟩ := evLabel_inl hey
      exact ⟨ch, sec, f, he ▸ heP⟩
    · obtain ⟨e, heP, hey⟩ := hb3
      obtain ⟨ch, sec, f, he⟩ := evLabel_inl hey
      exact ⟨ch, sec, f, he ▸ heP⟩
    · obtain ⟨e, heP, hey⟩ := hb4
      obtain ⟨ch, sec, f, he⟩ := evLabel_inl hey
      exact ⟨ch, sec, f, he ▸ heP⟩
    · obtain ⟨e, heP, hey⟩ := hb5
      obtain ⟨ch, sec, f, he⟩ := evLabel_inl hey
      exact ⟨ch, sec, f, he ▸ heP⟩
    · obtain ⟨e, heP, hey⟩ := hb6
      obtain ⟨ch, sec, f, he⟩ := evLabel_inl hey
      exact ⟨ch, sec, f, he ▸ heP⟩
    · obtain ⟨e, heP, hey⟩ := hb7
      obtain ⟨ch, sec, f, he⟩ := evLabel_inl hey
      exact ⟨ch, sec, f, he ▸ heP⟩
    · obtain ⟨e, heP, hey⟩ := hb8
      obtain ⟨ch, sec, f, he⟩ := evLabel_inl hey
      exact ⟨ch, sec, f, he ▸ heP⟩
    · obtain ⟨e, heP, hey⟩ := hb9
      obtain ⟨ch, sec, f, he⟩ := evLabel_inl hey
      exact ⟨ch, sec, f, he ▸ heP⟩

theorem claim_C7_witness :
    ((0 : ℚ) = (emptySource.findFloat "HOME" (jointString 0)).getD 0 ∧
     (0 : ℚ) = (emptySource.findFloat "HOME_OFFSET" (jointString 0)).getD 0 ∧
     (-1 : ℚ) = (emptySource.findFloat "HOME_VEL" (jointString 0)).getD (-1) ∧
     (0 : ℚ) = (emptySource.findFloat "HOME_SEARCH_VEL" (jointString 0)).getD 0 ∧
     (0 : ℚ) = (emptySource.findFloat "HOME_LATCH_VEL" (jointString 0)).getD 0 ∧
     false = (emptySource.findBool "HOME_USE_INDEX" (jointString 0)).getD false ∧
     false = (emptySource.findBool "HOME_IGNORE_LIMITS" (jointString 0)).getD false ∧
     false = (emptySource.findBool "HOME_IS_SHARED" (jointString 0)).getD false ∧
     (-1 : Int) = (emptySource.findInt "HOME_SEQUENCE" (jointString 0)).getD (-1) ∧
     (0 : Int) = (emptySource.findInt "VOLATILE_HOME" (jointString 0)).getD 0) ∧
    (callKinds (loadJoint env0 (fun _ => 0) 0 emptySource).2).count
      CallKind.kSetHomingParams ≤ 1 ∧
    (∃ P Q, (loadJoint env0 (fun _ => 0) 0 emptySource).2 =
        P ++ Ev.call
          (CtrlCall.setHomingParams 0 0 0 (-1) 0 0 false false false (-1) 0)
          0 :: Q ∧
      ∀ k ∈ ["HOME", "HOME_OFFSET", "HOME_SEARCH_VEL", "HOME_LATCH_VEL",
             "HOME_VEL", "HOME_IS_SHARED", "HOME_USE_INDEX",
             "HOME_IGNORE_LIMITS", "HOME_SEQUENCE", "VOLATILE_HOME"],
        ∃ ch sec f, Ev.lookup ch k sec f ∈ P) :=
  claim_C7 env0 (fun _ => 0) 0 emptySource
    (by rw [loadJoint_emptySource env0 0 (fun _ => 0) (fun _ _ => rfl)]
        simp [defaultEvents])
